import Mathlib

/-!
Verification of the field-discovery / group-synthesis / fill-back engine of the
form-autofill content script (src/content_script/fieldDetection.ts, the form
filling module, and the settle waiter in src/content_script.ts).

The live document is modelled shallowly: a document is a flat, ordered list of
form-control elements (inputs, textareas, selects, widget containers) carrying
the attributes the source code inspects, together with label associations
(label[for=id] -> text) and fieldset records.  Element references are indices
into the element list; assigning an id to an element (which the source does via
element.id = ...) is an update of that list.  Query-selector matching is
translated predicate-by-predicate from the selector strings in the source.

Model restrictions (the flat document cannot express arbitrary nesting):
sibling/ancestor label search, aria-labelledby aggregation and the custom
dropdown inner-input redirection degenerate; the aria-describedby target text
is carried directly on the element.  None of the claims below depend on those
features.  All functions are executable and all predicates decidable.
-/

namespace FieldDetect

/-! ### Decimal representation: injectivity of Nat.repr

The source builds element identifiers as the template string
"ai-applier-field-" followed by the decimal print of a global counter.
To reason about identifier freshness we prove that the decimal printer
used by Lean's Nat.repr (which models JS number-to-string for naturals)
is injective. -/

/-- Numeric value of a decimal digit character produced by Nat.digitChar. -/
def digitVal (c : Char) : Nat :=
  if c = '0' then 0 else if c = '1' then 1 else if c = '2' then 2 else
  if c = '3' then 3 else if c = '4' then 4 else if c = '5' then 5 else
  if c = '6' then 6 else if c = '7' then 7 else if c = '8' then 8 else
  if c = '9' then 9 else 10

/-- Value of a big-endian list of decimal digit characters. -/
def digitsVal (l : List Char) : Nat := l.foldl (fun a c => 10 * a + digitVal c) 0

/-! ### Identifier generation (fieldDetection.ts lines 7-10)

let fieldIdCounter = 0;
export function generateFieldId() returns the template string
"ai-applier-field-" followed by ++fieldIdCounter.
The global mutable counter is threaded explicitly: a call maps the current
counter to the produced identifier together with the new counter value. -/

/-- The identifier string carrying counter value k. -/
def fieldIdString (k : Nat) : String := "ai-applier-field-" ++ Nat.repr k

/-- generateFieldId: pre-increments the global counter and returns the
template string built from it, paired with the updated counter. -/
def generateFieldId (fieldIdCounter : Nat) : String × Nat :=
  (fieldIdString (fieldIdCounter + 1), fieldIdCounter + 1)

/-! ### JS string primitives

The Lean core String functions for trimming, lower-casing, splitting and
prefix tests are implemented by byte-position loops that the kernel cannot
evaluate; the JS string operations the source relies on are therefore
modelled directly on character lists (structurally recursive, hence fully
executable in proofs). -/

/-- JS whitespace as used by String.prototype.trim. -/
def isJsSpace (c : Char) : Bool := c = ' ' || c = '\t' || c = '\n' || c = '\r'

/-- JS String.prototype.trim. -/
def jsTrim (s : String) : String :=
  (((s.data.dropWhile isJsSpace).reverse.dropWhile isJsSpace).reverse).asString

/-- JS String.prototype.toLowerCase (ASCII range). -/
def jsToLower (s : String) : String := (s.data.map Char.toLower).asString

/-- JS String.prototype.startsWith. -/
def jsStartsWith (s pat : String) : Bool := pat.data.isPrefixOf s.data

/-- JS String.prototype.endsWith. -/
def jsEndsWith (s pat : String) : Bool := pat.data.reverse.isPrefixOf s.data.reverse

/-- JS String.prototype.split with a single-character separator. -/
def splitOnCharAux (sep : Char) : List Char → List Char → List String
  | [], acc => [acc.reverse.asString]
  | c :: rest, acc =>
    if c = sep then acc.reverse.asString :: splitOnCharAux sep rest []
    else splitOnCharAux sep rest (c :: acc)

/-- Split a string on a separator character (JS split with a one-character
separator: always at least one piece). -/
def splitOnChar (s : String) (sep : Char) : List String := splitOnCharAux sep s.data []

/-! ### Document model

A flat, ordered list of form-control elements with the attributes the source
inspects.  String-valued attributes use "" for "attribute absent".  Element
references (the HTMLElement object references held by group options) are
indices into the element list. -/

/-- One option of a native select element (value, display text, selected). -/
structure SelectOpt where
  value : String := ""
  text : String := ""
  selected : Bool := false
  deriving Repr, DecidableEq

/-- A fieldset container: class attribute, id attribute, legend text. -/
structure Fieldset where
  className : String := ""
  id : String := ""
  legend : String := ""
  deriving Repr, DecidableEq

/-- A form-control element of the document with the attributes the detection
code reads.  cssHidden models computed display:none / visibility:hidden;
inForm models element.closest("form") being non-null; fieldset is the index
of the enclosing fieldset, if any; describedByText is the resolved text of
the aria-describedby target ("" when the attribute is absent). -/
structure Elem where
  tag : String := "input"
  type : String := "text"
  id : String := ""
  name : String := ""
  value : String := ""
  checked : Bool := false
  disabled : Bool := false
  required : Bool := false
  ariaRequired : String := ""
  placeholder : String := ""
  ariaLabel : String := ""
  ariaLabelledBy : Bool := false
  role : String := ""
  ariaHasPopup : String := ""
  ariaExpanded : Bool := false
  contenteditable : Bool := false
  tabindex : Option String := none
  classes : List String := []
  hiddenAttr : Bool := false
  cssHidden : Bool := false
  inForm : Bool := false
  fieldset : Option Nat := none
  multiple : Bool := false
  selectOptions : List SelectOpt := []
  accept : String := ""
  describedByText : String := ""
  dropdownOptions : List SelectOpt := []
  deriving Repr, DecidableEq

/-- The document: elements in document order, label[for=id] associations
(id, trimmed text) and the fieldset records referenced by Elem.fieldset. -/
structure Doc where
  elems : List Elem := []
  labels : List (String × String) := []
  fieldsets : List Fieldset := []
  deriving Repr, DecidableEq

/-- Element at index i (out-of-range yields a default element; all uses are
guarded by valid indices). -/
def Doc.elemAt (doc : Doc) (i : Nat) : Elem := doc.elems.getD i {}

/-- Write an id onto the element at index i (models element.id = newId). -/
def Doc.setId (doc : Doc) (i : Nat) (newId : String) : Doc :=
  { doc with elems := doc.elems.set i { doc.elems.getD i {} with id := newId } }

/-- Set the checked state of the element at index i. -/
def Doc.setChecked (doc : Doc) (i : Nat) (b : Bool) : Doc :=
  { doc with elems := doc.elems.set i { doc.elems.getD i {} with checked := b } }

/-- Set the value of the element at index i. -/
def Doc.setValue (doc : Doc) (i : Nat) (v : String) : Doc :=
  { doc with elems := doc.elems.set i { doc.elems.getD i {} with value := v } }

/-- getElementById: index of the first element whose id equals the given
non-empty string. -/
def Doc.findById (doc : Doc) (s : String) : Option Nat :=
  if s = "" then none else (doc.elems.findIdx? (fun e => e.id = s))

/-- label[for=id] lookup (document.querySelector with a label selector). -/
def Doc.labelFor (doc : Doc) (id : String) : Option String :=
  if id = "" then none else (doc.labels.find? (fun p => p.1 = id)).map (·.2)

/-! ### FormField descriptor model (formFillerService type module) -/

/-- The value slot of a FormField: string, string list, or boolean. -/
inductive FieldVal where
  | str (s : String)
  | list (l : List String)
  | bool (b : Bool)
  deriving Repr, DecidableEq

/-- FormFieldOption: value, label, selected, the member's id attribute
("" when absent) and the reference to the member element (index). -/
structure FFOption where
  value : String := ""
  label : String := ""
  selected : Bool := false
  id : String := ""
  elemRef : Option Nat := none
  deriving Repr, DecidableEq

/-- FormField: the descriptor handed to the reasoning collaborator and to
fill-back.  Optional TS fields are Option / default-false here. -/
structure FormField where
  id : String
  name : Option String := none
  label : String := ""
  type : String := "text"
  selector : String := ""
  placeholder : Option String := none
  required : Bool := false
  disabled : Bool := false
  value : Option FieldVal := none
  options : Option (List FFOption) := none
  surroundingText : Option String := none
  description : Option String := none
  groupName : Option String := none
  formatHint : Option String := none
  accept : Option String := none
  isGroup : Bool := false
  deriving Repr, DecidableEq

/-! ### Label / description resolution (fieldDetection.ts lines 13-243)

The flat document cannot express the ancestor/sibling searches (parent label
wrapping, custom-dropdown container walk, preceding sibling text); those
steps of the precedence chain are vacuous here.  The represented steps are
translated in source order. -/

/-- Is c a JS word character (\w = letters, digits, underscore). -/
def isWordChar (c : Char) : Bool := c.isAlphanum || c = '_'

/-- Uppercase every word character that starts a word (JS replace of \b\w),
given whether the previous character was a word character. -/
def capitalizeWordStarts : Bool → List Char → List Char
  | _, [] => []
  | prevWord, c :: rest =>
    (if !prevWord && isWordChar c then c.toUpper else c) ::
      capitalizeWordStarts (isWordChar c) rest

/-- name.replace of [_-] by spaces followed by title-casing word starts. -/
def humanizeName (s : String) : String :=
  (capitalizeWordStarts false
    (s.data.map (fun c => if c = '_' || c = '-' then ' ' else c))).asString

/-- getFieldLabel: label[for=id] text, else aria-label, else placeholder,
else humanized name attribute, else the sentinel.  (aria-labelledby
aggregation and ancestor/sibling searches are vacuous in the flat model.) -/
def getFieldLabel (doc : Doc) (e : Elem) : String :=
  match doc.labelFor e.id with
  | some txt => txt
  | none =>
    if e.ariaLabel ≠ "" then jsTrim e.ariaLabel
    else if e.placeholder ≠ "" then jsTrim e.placeholder
    else if e.name ≠ "" then humanizeName e.name
    else "Unlabeled Field"

/-- getFieldDescription: aria-describedby text, then the enclosing fieldset's
legend (skipping duplicates), joined and capped to 500 characters. -/
def getFieldDescription (doc : Doc) (e : Elem) : String :=
  let parts : List String :=
    (if e.describedByText ≠ "" then [e.describedByText] else [])
  let parts :=
    match e.fieldset with
    | none => parts
    | some fi =>
      match doc.fieldsets.get? fi with
      | none => parts
      | some fs =>
        if fs.legend ≠ "" && ¬ parts.contains fs.legend then parts ++ [fs.legend]
        else parts
  (String.intercalate " " parts).take 500

/-- getFormatHint: fixed lookup from temporal input types to patterns. -/
def getFormatHint (inputType : String) : Option String :=
  if inputType = "month" then some "YYYY-MM"
  else if inputType = "date" then some "YYYY-MM-DD"
  else if inputType = "datetime-local" then some "YYYY-MM-DDTHH:mm"
  else if inputType = "time" then some "HH:mm"
  else if inputType = "week" then some "YYYY-Www"
  else none

/-- getSurroundingText: sibling/parent text nodes are not representable in
the flat model; the function degenerates to the empty string. -/
def getSurroundingText (_doc : Doc) (_e : Elem) : String := ""

/-! ### Emptiness checks (fieldDetection.ts lines 112-186) -/

/-- isFieldEmpty: a disabled field is never empty; otherwise emptiness of
the recorded value (missing, blank string, false boolean, or a list that is
empty or all-blank). -/
def isFieldEmpty (field : FormField) : Bool :=
  if field.disabled then false
  else
    match field.value with
    | none => true
    | some (.str s) => jsTrim s = ""
    | some (.bool b) => !b
    | some (.list l) => l.length = 0 || l.all (fun v => jsTrim v = "")

/-- value of a native select element: the value of the first selected option,
"" when none is selected. -/
def selectElemValue (e : Elem) : String :=
  match e.selectOptions.find? (·.selected) with
  | some o => o.value
  | none => ""

/-- isFieldElementEmpty: live emptiness read from the document.  The
custom-dropdown inner-markup checks degenerate to the source's default
(true) in the flat model. -/
def isFieldElementEmpty (e : Elem) (fieldType : String) : Bool :=
  if e.tag = "input" then
    if fieldType = "checkbox" || fieldType = "radio" then !e.checked
    else jsTrim e.value = ""
  else if e.tag = "textarea" then jsTrim e.value = ""
  else if e.tag = "select" then
    selectElemValue e = "" || (e.selectOptions.all (fun o => !o.selected))
  else true

/-! ### Element classification (fieldDetection.ts lines 272-568) -/

/-- The form-related ARIA roles recognized by the detector. -/
def formRoles : List String :=
  ["textbox", "combobox", "checkbox", "radio", "switch", "slider", "listbox"]

/-- isFormFieldElement: filters out disabled/hidden elements, button-like
inputs, and non-form buttons/links, translated branch by branch. -/
def isFormFieldElement (e : Elem) : Bool :=
  if e.disabled then false
  else if e.hiddenAttr then false
  else if e.cssHidden then false
  else if e.tag = "input" then
    ¬(e.type = "submit" || e.type = "button" || e.type = "reset" || e.type = "hidden")
  else if e.tag = "textarea" || e.tag = "select" then true
  else if formRoles.contains e.role then true
  else if e.contenteditable then true
  else if e.name ≠ "" || e.ariaLabel ≠ "" || e.ariaLabelledBy ||
      e.describedByText ≠ "" || e.ariaRequired ≠ "" then
    if (e.tag = "button" || e.tag = "a") && ¬ formRoles.contains e.role then false
    else true
  else if e.inForm && (e.tag = "button" || e.tag = "a") then formRoles.contains e.role
  else if e.inForm && (e.tag = "div" || e.tag = "span") then true
  else if e.classes.contains "select-shell" || e.classes.contains "select__control" ||
      e.ariaHasPopup ≠ "" then true
  else false

/-- determineFieldType: custom-dropdown duck-typing first, then native tags,
then ARIA roles, defaulting to text. -/
def determineFieldType (e : Elem) : String :=
  if e.role = "combobox" || e.ariaHasPopup = "listbox" || e.ariaHasPopup = "true" ||
      e.classes.contains "select-shell" || e.classes.contains "select__control" then
    "custom-dropdown"
  else if e.tag = "input" then
    if e.type = "checkbox" then "checkbox"
    else if e.type = "radio" then "radio"
    else if e.type = "file" then "file"
    else if e.type = "hidden" then "hidden"
    else if e.type = "range" then "range"
    else if e.type = "color" then "color"
    else if e.type = "search" then "search"
    else if e.type = "number" then "number"
    else if e.type = "date" || e.type = "datetime-local" || e.type = "time" ||
        e.type = "month" || e.type = "week" then e.type
    else if e.type = "email" then "email"
    else if e.type = "tel" then "tel"
    else if e.type = "url" then "url"
    else if e.type = "password" then "password"
    else "text"
  else if e.tag = "textarea" then "textarea"
  else if e.tag = "select" then (if e.multiple then "multi-select" else "select")
  else if e.role = "textbox" then (if e.contenteditable then "textarea" else "text")
  else if e.role = "checkbox" then "checkbox"
  else if e.role = "radio" then "radio"
  else if e.role = "switch" then "checkbox"
  else if e.role = "slider" then "range"
  else if e.role = "listbox" then "select"
  else "text"

/-! ### Group synthesis (fieldDetection.ts lines 348-510) -/

/-- Insert index i into the insertion-ordered group map under the given key
(JS Map preserves insertion order; pushing appends to the member list). -/
def insertGrouped (groups : List (String × List Nat)) (key : String) (i : Nat) :
    List (String × List Nat) :=
  match groups with
  | [] => [(key, [i])]
  | (k, l) :: rest =>
    if k = key then (k, l ++ [i]) :: rest else (k, l) :: insertGrouped rest key i

/-- The radio groups: all input[type=radio] elements in document order,
skipping disabled or unnamed ones, grouped by name. -/
def radioGroupsOf (doc : Doc) : List (String × List Nat) :=
  (doc.elems.enum.filter (fun p => p.2.tag = "input" && p.2.type = "radio")).foldl
    (fun gs p => if p.2.disabled || p.2.name = "" then gs else insertGrouped gs p.2.name p.1)
    []

/-- A group member option: label from label[for=member-id] else the member's
value; selected mirrors the live checked state; keeps the member's id and a
reference to the member element. -/
def mkMemberOption (doc : Doc) (i : Nat) : FFOption :=
  let r := doc.elemAt i
  { value := r.value, label := (doc.labelFor r.id).getD r.value,
    selected := r.checked, id := r.id, elemRef := some i }

/-- Build one radio-group descriptor: fresh generated id, label from the
first member with fieldset-legend fallback, required as OR over members.
(A legend element with empty text is not distinguished from a missing
legend in this model; both leave the label unchanged.) -/
def mkRadioGroupField (doc : Doc) (name : String) (members : List Nat) (c : Nat) :
    FormField × Nat :=
  let (gid, c1) := generateFieldId c
  let first := doc.elemAt (members.headD 0)
  let label0 := getFieldLabel doc first
  let label :=
    if label0 = "" || label0 = "Unlabeled Field" then
      match first.fieldset with
      | some fi =>
        match doc.fieldsets.get? fi with
        | some fs => if fs.legend ≠ "" then fs.legend else label0
        | none => label0
      | none => label0
    else label0
  ({ id := gid, name := some name, label := label, type := "radio-group",
     selector := "input[type=\"radio\"][name=\"" ++ name ++ "\"]",
     required := members.any (fun i => (doc.elemAt i).required),
     disabled := false,
     options := some (members.map (mkMemberOption doc)),
     surroundingText := some "",
     description := some (getFieldDescription doc first),
     groupName := some name, isGroup := true }, c1)

/-- groupRadioButtons: one radio-group descriptor per non-empty name group,
in group insertion order, threading the id counter. -/
def groupRadioButtons (doc : Doc) (c : Nat) : List FormField × Nat :=
  (radioGroupsOf doc).foldl
    (fun acc g =>
      if g.2.length = 0 then acc
      else
        let fc := mkRadioGroupField doc g.1 g.2 acc.2
        (acc.1 ++ [fc.1], fc.2))
    ([], c)

/-- Strip a trailing array-style suffix from a name: a literal bracket pair
holding only digits at the very end (JS replace of the [digits] suffix). -/
def stripArraySuffix (s : String) : String :=
  match s.data.reverse with
  | ']' :: rest =>
    let digits := rest.takeWhile Char.isDigit
    match rest.drop digits.length with
    | '[' :: rem => rem.reverse.asString
    | _ => s
  | _ => s

/-- An accumulating checkbox group: key, label and description fixed by the
first member that opened the group, plus the member indices. -/
structure CbGroup where
  key : String
  label : String
  description : String
  members : List Nat
  deriving Repr, DecidableEq

/-- Insert a member into the insertion-ordered checkbox group list; the
label/description of an existing group are kept. -/
def insertCbGroup (groups : List CbGroup) (key label description : String) (i : Nat) :
    List CbGroup :=
  match groups with
  | [] => [{ key := key, label := label, description := description, members := [i] }]
  | g :: rest =>
    if g.key = key then { g with members := g.members ++ [i] } :: rest
    else g :: insertCbGroup rest key label description i

/-- The grouping key, label and description for one checkbox, if any: first
the fieldset criterion (more than one checkbox, disabled included, under the
same fieldset), then the array-style name criterion (more than one enabled
checkbox whose name starts with the stripped base name). -/
def checkboxGroupKey (doc : Doc) (e : Elem) : Option (String × String × String) :=
  let fieldsetKey : Option (String × String × String) :=
    match e.fieldset with
    | some fi =>
      match doc.fieldsets.get? fi with
      | some fs =>
        let count := (doc.elems.filter
          (fun (x : Elem) => x.tag = "input" && x.type = "checkbox" && x.fieldset = some fi)).length
        if count > 1 then
          some ("fieldset-" ++ fs.className ++ "-" ++ fs.id,
                if fs.legend ≠ "" then fs.legend else "Checkbox Group",
                getFieldDescription doc e)
        else none
      | none => none
    | none => none
  match fieldsetKey with
  | some k => some k
  | none =>
    if e.name ≠ "" then
      let baseName := stripArraySuffix e.name
      let matching := doc.elems.filter (fun (x : Elem) =>
        x.tag = "input" && x.type = "checkbox" && jsStartsWith x.name baseName && !x.disabled)
      if matching.length > 1 then
        some ("array-" ++ baseName, humanizeName baseName, getFieldDescription doc e)
      else none
    else none

/-- The accumulated checkbox groups of the document, in insertion order. -/
def checkboxGroupsOf (doc : Doc) : List CbGroup :=
  (doc.elems.enum.filter (fun p => p.2.tag = "input" && p.2.type = "checkbox")).foldl
    (fun gs p =>
      if p.2.disabled then gs
      else
        match checkboxGroupKey doc p.2 with
        | some k => insertCbGroup gs k.1 k.2.1 k.2.2 p.1
        | none => gs)
    []

/-- Build one checkbox-group descriptor from an accumulated group. -/
def mkCheckboxGroupField (doc : Doc) (g : CbGroup) (c : Nat) : FormField × Nat :=
  let (gid, c1) := generateFieldId c
  let firstName := (doc.elemAt (g.members.headD 0)).name
  ({ id := gid, label := g.label, type := "checkbox-group",
     selector :=
       if firstName ≠ "" then "input[type=\"checkbox\"][name^=\"" ++ firstName ++ "\"]"
       else "#invalid",
     required := g.members.any (fun i => (doc.elemAt i).required),
     disabled := false,
     options := some (g.members.map (mkMemberOption doc)),
     description := some g.description, isGroup := true }, c1)

/-- groupCheckboxes: emit a checkbox-group descriptor for every accumulated
group with at least 2 members. -/
def groupCheckboxes (doc : Doc) (c : Nat) : List FormField × Nat :=
  (checkboxGroupsOf doc).foldl
    (fun acc g =>
      if g.members.length < 2 then acc
      else
        let fc := mkCheckboxGroupField doc g acc.2
        (acc.1 ++ [fc.1], fc.2))
    ([], c)

/-! ### Discovery passes (fieldDetection.ts lines 898-1241)

Each pass iterates a fixed selector list; for every selector the elements of
the current document matching it are processed in document order.  The
pass-local processedIds set, the id-generation side effect (the counter is
consumed even when the freshly generated id turns out to be already
processed) and the write-back of generated ids onto the document are all
threaded explicitly. -/

/-- The running state of one detection pass. -/
structure PassSt where
  fields : List FormField := []
  doc : Doc
  counter : Nat
  processed : List String := []
  deriving Repr, DecidableEq

/-- The FormField built by the focusable / tab-order / ARIA passes for the
element at index i (which already carries its final id). -/
def mkStandardField (doc : Doc) (i : Nat) : FormField :=
  let e := doc.elemAt i
  { id := e.id,
    name := if e.name = "" then none else some e.name,
    label := getFieldLabel doc e,
    type := determineFieldType e,
    selector := "#" ++ e.id,
    placeholder := if e.placeholder = "" then none else some e.placeholder,
    required := e.required || e.ariaRequired = "true",
    disabled := e.disabled,
    value := if e.value = "" then none else some (.str e.value),
    surroundingText := some (getSurroundingText doc e),
    description := some (getFieldDescription doc e),
    formatHint := getFormatHint e.type }

/-- Process one element of the focusable pass: filter, id bookkeeping,
descriptor construction (custom dropdowns get an empty option list). -/
def processFocusableElem (st : PassSt) (i : Nat) : PassSt :=
  let e := st.doc.elemAt i
  if ¬ isFormFieldElement e then st
  else
    let gen := if e.id ≠ "" then (e.id, st.counter) else generateFieldId st.counter
    if st.processed.contains gen.1 then { st with counter := gen.2 }
    else
      let doc2 := if e.id = "" then st.doc.setId i gen.1 else st.doc
      let f0 := mkStandardField doc2 i
      let f := if f0.type = "custom-dropdown" then { f0 with options := some [] } else f0
      { fields := st.fields ++ [f], doc := doc2, counter := gen.2,
        processed := st.processed ++ [gen.1] }

/-- Run a pass given its selector matchers and per-element processor. -/
def runSelectorPass (matchers : List (Elem → Bool)) (process : PassSt → Nat → PassSt)
    (doc : Doc) (c : Nat) : PassSt :=
  matchers.foldl
    (fun st m =>
      (((st.doc.elems.enum.filter (fun p => m p.2)).map (·.1)).foldl process st))
    { doc := doc, counter := c }

/-- The selector list of detectFocusableFormFields. -/
def focusableMatchers : List (Elem → Bool) :=
  [ fun e => e.tag = "input" &&
      ¬(e.type = "hidden" || e.type = "submit" || e.type = "button" || e.type = "reset"),
    fun e => e.tag = "textarea",
    fun e => e.tag = "select",
    fun e => e.role = "combobox",
    fun e => e.role = "textbox",
    fun e => e.role = "listbox",
    fun e => e.role = "checkbox",
    fun e => e.role = "radio",
    fun e => e.contenteditable,
    fun e => e.tabindex.isSome && e.tabindex ≠ some "-1",
    fun e => e.classes.contains "select-shell",
    fun e => e.classes.contains "select__control",
    fun e => e.ariaHasPopup = "true" ]

/-- detectFocusableFormFields: primary capability/role-based pass. -/
def detectFocusableFormFields (doc : Doc) (c : Nat) : PassSt :=
  runSelectorPass focusableMatchers processFocusableElem doc c

/-- Process one element of the tab-order / ARIA passes (same construction,
without the custom-dropdown empty-options tweak). -/
def processStandardElem (st : PassSt) (i : Nat) : PassSt :=
  let e := st.doc.elemAt i
  if ¬ isFormFieldElement e then st
  else
    let gen := if e.id ≠ "" then (e.id, st.counter) else generateFieldId st.counter
    if st.processed.contains gen.1 then { st with counter := gen.2 }
    else
      let doc2 := if e.id = "" then st.doc.setId i gen.1 else st.doc
      { fields := st.fields ++ [mkStandardField doc2 i], doc := doc2, counter := gen.2,
        processed := st.processed ++ [gen.1] }

/-- The selector list of detectByTabOrder. -/
def tabOrderMatchers : List (Elem → Bool) :=
  [ fun e => e.tag = "input" && e.type ≠ "hidden" && e.tabindex ≠ some "-1",
    fun e => e.tag = "textarea" && e.tabindex ≠ some "-1",
    fun e => e.tag = "select" && e.tabindex ≠ some "-1",
    fun e => e.tabindex.isSome && e.tabindex ≠ some "-1",
    fun e => e.role = "combobox",
    fun e => e.role = "textbox",
    fun e => e.contenteditable ]

/-- detectByTabOrder: comprehensive focusability fallback pass. -/
def detectByTabOrder (doc : Doc) (c : Nat) : PassSt :=
  runSelectorPass tabOrderMatchers processStandardElem doc c

/-- The selector list of detectAccessibilityFields: the seven form-related
role selectors, then the combined query for labeling/description ARIA
attributes on elements inside a form container. -/
def ariaMatchers : List (Elem → Bool) :=
  [ fun e => e.role = "textbox",
    fun e => e.role = "combobox",
    fun e => e.role = "checkbox",
    fun e => e.role = "radio",
    fun e => e.role = "switch",
    fun e => e.role = "slider",
    fun e => e.role = "listbox",
    fun e => e.inForm &&
      (e.ariaLabel ≠ "" || e.ariaLabelledBy || e.describedByText ≠ "" ||
       e.ariaRequired = "true") ]

/-- detectAccessibilityFields: ARIA-based pass. -/
def detectAccessibilityFields (doc : Doc) (c : Nat) : PassSt :=
  runSelectorPass ariaMatchers processStandardElem doc c

/-- The selector list of detectCustomDropdowns. -/
def dropdownMatchers : List (Elem → Bool) :=
  [ fun e => e.role = "combobox",
    fun e => e.classes.contains "select-shell",
    fun e => e.classes.contains "select__control",
    fun e => e.ariaHasPopup = "listbox",
    fun e => e.ariaHasPopup = "true" && e.ariaExpanded ]

/-- Process one container of the custom-dropdown pass.  The asynchronous
option-extraction protocol is modelled by the dropdownOptions the container
exposes; when it yields nothing the description is enriched with structural
context (the markup snippet itself is not representable, the marker text
standing in for it is). -/
def processDropdownElem (st : PassSt) (i : Nat) : PassSt :=
  let e := st.doc.elemAt i
  if ¬ isFormFieldElement e then st
  else
    let gen := if e.id ≠ "" then (e.id, st.counter) else generateFieldId st.counter
    if st.processed.contains gen.1 then { st with counter := gen.2 }
    else
      let doc2 := if e.id = "" then st.doc.setId i gen.1 else st.doc
      let e2 := doc2.elemAt i
      let opts := e2.dropdownOptions.map
        (fun o => ({ value := o.value, label := o.text, selected := o.selected } : FFOption))
      let desc0 := getFieldDescription doc2 e2
      let desc :=
        if opts.length > 0 then desc0
        else if desc0 ≠ "" then desc0 ++ ". " ++ "Dropdown container structure:"
        else "Dropdown container structure:"
      let f : FormField :=
        { id := e2.id,
          name := if e2.name = "" then none else some e2.name,
          label := getFieldLabel doc2 e2,
          type := "custom-dropdown",
          selector := "#" ++ e2.id,
          placeholder := if e2.placeholder = "" then none else some e2.placeholder,
          required := e2.required || e2.ariaRequired ≠ "",
          disabled := e2.disabled,
          value := if e2.value = "" then none else some (.str e2.value),
          options := if opts.length > 0 then some opts else none,
          surroundingText := some (getSurroundingText doc2 e2),
          description := some desc }
      { fields := st.fields ++ [f], doc := doc2, counter := gen.2,
        processed := st.processed ++ [gen.1] }

/-- detectCustomDropdowns: pattern-based widget pass. -/
def detectCustomDropdowns (doc : Doc) (c : Nat) : PassSt :=
  runSelectorPass dropdownMatchers processDropdownElem doc c

/-! ### detectFormFields: merge pipeline (fieldDetection.ts lines 1247-1478) -/

/-- The deduplication map (JS Map from id to latest descriptor): an
insertion-ordered association list where set overwrites in place. -/
def fmHas (m : List (String × FormField)) (id : String) : Bool := m.any (fun p => p.1 = id)

def fmGet (m : List (String × FormField)) (id : String) : Option FormField :=
  (m.find? (fun p => p.1 = id)).map (·.2)

def fmSet (m : List (String × FormField)) (id : String) (f : FormField) :
    List (String × FormField) :=
  match m.findIdx? (fun p => p.1 = id) with
  | some i => m.set i (id, f)
  | none => m ++ [(id, f)]

/-- Replace the first entry of allFields holding the descriptor's id. -/
def replaceInFields (fields : List FormField) (f : FormField) : List FormField :=
  match fields.findIdx? (fun x => x.id = f.id) with
  | some i => fields.set i f
  | none => fields

/-- The non-empty member-control ids recorded for one synthesized group. -/
def optionMemberIds (f : FormField) : List String :=
  ((f.options.getD []).map (·.id)).filter (fun s => s ≠ "")

/-- The accumulated field list and dedup map during merging. -/
structure MergeSt where
  allFields : List FormField := []
  fieldMap : List (String × FormField) := []
  deriving Repr, DecidableEq

/-- Push a descriptor, registering it in the map when its id is non-empty. -/
def MergeSt.push (st : MergeSt) (f : FormField) : MergeSt :=
  { allFields := st.allFields ++ [f],
    fieldMap := if f.id ≠ "" then fmSet st.fieldMap f.id f else st.fieldMap }

/-- Step 2 merge: skip group members, push new ids, and upgrade an existing
descriptor only when the new one is a custom-dropdown and the old is not. -/
def mergeFocusable (radioIds cbIds : List String) (st : MergeSt) (f : FormField) : MergeSt :=
  if f.id ≠ "" && radioIds.contains f.id then st
  else if f.id ≠ "" && cbIds.contains f.id then st
  else if f.id ≠ "" && fmHas st.fieldMap f.id then
    match fmGet st.fieldMap f.id with
    | some existing =>
      if f.type = "custom-dropdown" && existing.type ≠ "custom-dropdown" then
        { allFields := replaceInFields st.allFields f, fieldMap := fmSet st.fieldMap f.id f }
      else st
    | none => st
  else st.push f

/-- Step 3 merge: skip group members, push only unseen non-empty ids. -/
def mergeTabOrder (radioIds cbIds : List String) (st : MergeSt) (f : FormField) : MergeSt :=
  if f.id ≠ "" && radioIds.contains f.id then st
  else if f.id ≠ "" && cbIds.contains f.id then st
  else if f.id ≠ "" && ¬ fmHas st.fieldMap f.id then st.push f
  else st

/-- Step 4 merge: skip group members, push unseen ids, upgrade to
custom-dropdown. -/
def mergeAria (radioIds cbIds : List String) (st : MergeSt) (f : FormField) : MergeSt :=
  if f.id ≠ "" && radioIds.contains f.id then st
  else if f.id ≠ "" && cbIds.contains f.id then st
  else if f.id ≠ "" && ¬ fmHas st.fieldMap f.id then st.push f
  else if f.id ≠ "" && fmHas st.fieldMap f.id then
    match fmGet st.fieldMap f.id with
    | some existing =>
      if f.type = "custom-dropdown" && existing.type ≠ "custom-dropdown" then
        { allFields := replaceInFields st.allFields f, fieldMap := fmSet st.fieldMap f.id f }
      else st
    | none => st
  else st

/-- Step 5 merge: custom-dropdown detection always beats a less specific
existing descriptor (no group-membership exclusion in this step). -/
def mergeDropdown (st : MergeSt) (f : FormField) : MergeSt :=
  if f.id ≠ "" && fmHas st.fieldMap f.id then
    match fmGet st.fieldMap f.id with
    | some existing =>
      if existing.type ≠ "custom-dropdown" then
        { allFields := replaceInFields st.allFields f, fieldMap := fmSet st.fieldMap f.id f }
      else st
    | none => st
  else st.push f

/-- State of the legacy standard-tag pass (step 6), which also generates ids
and writes them back. -/
structure LegacySt where
  merge : MergeSt
  doc : Doc
  counter : Nat
  deriving Repr, DecidableEq

/-- Step 6, inputs: skip disabled controls, grouped radios/checkboxes and
already-registered ids; otherwise emit a descriptor keyed by the (possibly
freshly generated) element id. -/
def legacyInputStep (radioIds cbIds : List String) (st : LegacySt) (i : Nat) : LegacySt :=
  let e := st.doc.elemAt i
  if e.disabled then st
  else if e.type = "radio" && radioIds.contains e.id then st
  else if e.type = "checkbox" && cbIds.contains e.id then st
  else if e.id ≠ "" && fmHas st.merge.fieldMap e.id then st
  else
    let gen := if e.id ≠ "" then (e.id, st.counter) else generateFieldId st.counter
    let doc2 := if e.id = "" then st.doc.setId i gen.1 else st.doc
    let e2 := doc2.elemAt i
    let inputType := if e2.type = "" then "text" else e2.type
    let f : FormField :=
      { id := gen.1,
        name := if e2.name = "" then none else some e2.name,
        label := getFieldLabel doc2 e2,
        type := inputType,
        selector := "#" ++ gen.1,
        placeholder := if e2.placeholder = "" then none else some e2.placeholder,
        required := e2.required,
        disabled := e2.disabled,
        value := if e2.value = "" then none else some (.str e2.value),
        surroundingText := some (getSurroundingText doc2 e2),
        accept := if e2.accept = "" then none else some e2.accept,
        description := some (getFieldDescription doc2 e2),
        formatHint := getFormatHint inputType }
    { merge := { allFields := st.merge.allFields ++ [f],
                 fieldMap := fmSet st.merge.fieldMap gen.1 f },
      doc := doc2, counter := gen.2 }

/-- Step 6, textareas. -/
def legacyTextareaStep (st : LegacySt) (i : Nat) : LegacySt :=
  let e := st.doc.elemAt i
  if e.disabled then st
  else if e.id ≠ "" && fmHas st.merge.fieldMap e.id then st
  else
    let gen := if e.id ≠ "" then (e.id, st.counter) else generateFieldId st.counter
    let doc2 := if e.id = "" then st.doc.setId i gen.1 else st.doc
    let e2 := doc2.elemAt i
    let f : FormField :=
      { id := gen.1,
        name := if e2.name = "" then none else some e2.name,
        label := getFieldLabel doc2 e2,
        type := "textarea",
        selector := "#" ++ gen.1,
        placeholder := if e2.placeholder = "" then none else some e2.placeholder,
        required := e2.required,
        disabled := e2.disabled,
        value := if e2.value = "" then none else some (.str e2.value),
        surroundingText := some (getSurroundingText doc2 e2),
        description := some (getFieldDescription doc2 e2) }
    { merge := { allFields := st.merge.allFields ++ [f],
                 fieldMap := fmSet st.merge.fieldMap gen.1 f },
      doc := doc2, counter := gen.2 }

/-- Step 6, selects: emits the option list read from the live element. -/
def legacySelectStep (st : LegacySt) (i : Nat) : LegacySt :=
  let e := st.doc.elemAt i
  if e.disabled then st
  else if e.id ≠ "" && fmHas st.merge.fieldMap e.id then st
  else
    let gen := if e.id ≠ "" then (e.id, st.counter) else generateFieldId st.counter
    let doc2 := if e.id = "" then st.doc.setId i gen.1 else st.doc
    let e2 := doc2.elemAt i
    let f : FormField :=
      { id := gen.1,
        name := if e2.name = "" then none else some e2.name,
        label := getFieldLabel doc2 e2,
        type := if e2.multiple then "multi-select" else "select",
        selector := "#" ++ gen.1,
        required := e2.required,
        disabled := e2.disabled,
        options := some (e2.selectOptions.map
          (fun o => ({ value := o.value, label := o.text, selected := o.selected } : FFOption))),
        surroundingText := some (getSurroundingText doc2 e2),
        description := some (getFieldDescription doc2 e2) }
    { merge := { allFields := st.merge.allFields ++ [f],
                 fieldMap := fmSet st.merge.fieldMap gen.1 f },
      doc := doc2, counter := gen.2 }

/-- querySelector for the selector strings the detector emits: an id
selector, the radio-group name selector, or the checkbox-group name-prefix
selector (first matching element in document order). -/
def querySelectorModel (doc : Doc) (sel : String) : Option Nat :=
  if jsStartsWith sel "#" then doc.findById (sel.drop 1)
  else if jsStartsWith sel "input[type=\"radio\"][name=\"" && jsEndsWith sel "\"]" then
    let nm := (sel.drop 26).dropRight 2
    doc.elems.findIdx? (fun e => e.tag = "input" && e.type = "radio" && e.name = nm)
  else if jsStartsWith sel "input[type=\"checkbox\"][name^=\"" && jsEndsWith sel "\"]" then
    let nm := (sel.drop 30).dropRight 2
    doc.elems.findIdx? (fun e => e.tag = "input" && e.type = "checkbox" && jsStartsWith e.name nm)
  else none

/-- getElementById(field.id) with querySelector(field.selector) fallback. -/
def lookupFieldElement (doc : Doc) (f : FormField) : Option Nat :=
  match doc.findById f.id with
  | some i => some i
  | none => querySelectorModel doc f.selector

/-- The result of a discovery run: descriptors, the (id-enriched) document
and the final counter value. -/
structure DetectResult where
  fields : List FormField
  doc : Doc
  counter : Nat
  deriving Repr, DecidableEq

/-- Stage 1 of detectFormFields: the synthesized radio groups. -/
def dfRg (doc : Doc) (c : Nat) : List FormField × Nat := groupRadioButtons doc c

/-- Stage 1 of detectFormFields: the synthesized checkbox groups. -/
def dfCg (doc : Doc) (c : Nat) : List FormField × Nat := groupCheckboxes doc (dfRg doc c).2

/-- The processedRadioIds list (non-empty member ids of radio groups). -/
def dfRadioIds (doc : Doc) (c : Nat) : List String := (dfRg doc c).1.flatMap optionMemberIds

/-- The processedCheckboxIds list (non-empty member ids of checkbox groups). -/
def dfCbIds (doc : Doc) (c : Nat) : List String := (dfCg doc c).1.flatMap optionMemberIds

/-- The merge state after registering the group descriptors. -/
def dfSt0 (doc : Doc) (c : Nat) : MergeSt := ((dfRg doc c).1 ++ (dfCg doc c).1).foldl MergeSt.push {}

/-- Step 2 pass run. -/
def dfP2 (doc : Doc) (c : Nat) : PassSt := detectFocusableFormFields doc (dfCg doc c).2

/-- Merge state after step 2. -/
def dfSt2 (doc : Doc) (c : Nat) : MergeSt :=
  (dfP2 doc c).fields.foldl (mergeFocusable (dfRadioIds doc c) (dfCbIds doc c)) (dfSt0 doc c)

/-- Step 3 pass run. -/
def dfP3 (doc : Doc) (c : Nat) : PassSt := detectByTabOrder (dfP2 doc c).doc (dfP2 doc c).counter

/-- Merge state after step 3. -/
def dfSt3 (doc : Doc) (c : Nat) : MergeSt :=
  (dfP3 doc c).fields.foldl (mergeTabOrder (dfRadioIds doc c) (dfCbIds doc c)) (dfSt2 doc c)

/-- Step 4 pass run. -/
def dfP4 (doc : Doc) (c : Nat) : PassSt :=
  detectAccessibilityFields (dfP3 doc c).doc (dfP3 doc c).counter

/-- Merge state after step 4. -/
def dfSt4 (doc : Doc) (c : Nat) : MergeSt :=
  (dfP4 doc c).fields.foldl (mergeAria (dfRadioIds doc c) (dfCbIds doc c)) (dfSt3 doc c)

/-- Step 5 pass run. -/
def dfP5 (doc : Doc) (c : Nat) : PassSt :=
  detectCustomDropdowns (dfP4 doc c).doc (dfP4 doc c).counter

/-- Merge state after step 5. -/
def dfSt5 (doc : Doc) (c : Nat) : MergeSt :=
  (dfP5 doc c).fields.foldl mergeDropdown (dfSt4 doc c)

/-- The element indices visited by the legacy input query. -/
def dfInputIdxs (doc : Doc) (c : Nat) : List Nat :=
  (((dfP5 doc c).doc.elems.enum.filter (fun p => p.2.tag = "input" &&
    ¬(p.2.type = "hidden" || p.2.type = "submit" || p.2.type = "button" ||
      p.2.type = "reset"))).map (·.1))

/-- State after the legacy input loop. -/
def dfL6a (doc : Doc) (c : Nat) : LegacySt :=
  (dfInputIdxs doc c).foldl (legacyInputStep (dfRadioIds doc c) (dfCbIds doc c))
    { merge := dfSt5 doc c, doc := (dfP5 doc c).doc, counter := (dfP5 doc c).counter }

/-- The element indices visited by the legacy textarea query. -/
def dfTaIdxs (doc : Doc) (c : Nat) : List Nat :=
  (((dfL6a doc c).doc.elems.enum.filter (fun p => p.2.tag = "textarea")).map (·.1))

/-- State after the legacy textarea loop. -/
def dfL6b (doc : Doc) (c : Nat) : LegacySt := (dfTaIdxs doc c).foldl legacyTextareaStep (dfL6a doc c)

/-- The element indices visited by the legacy select query. -/
def dfSelIdxs (doc : Doc) (c : Nat) : List Nat :=
  (((dfL6b doc c).doc.elems.enum.filter (fun p => p.2.tag = "select")).map (·.1))

/-- State after the legacy select loop: the end of discovery proper. -/
def dfL6c (doc : Doc) (c : Nat) : LegacySt := (dfSelIdxs doc c).foldl legacySelectStep (dfL6b doc c)

/-- detectFormFields: group synthesis, the four solo passes merged with the
specificity rule, the legacy standard-tag pass (the stages above, in source
statement order), and the optional live emptiness filter.  The
dropdown-expansion callback only resizes native selects and so has no effect
on the modelled attributes. -/
def detectFormFields (doc : Doc) (c : Nat) (filterEmpty : Bool) : DetectResult :=
  let l6c := dfL6c doc c
  { fields :=
      if filterEmpty then
        l6c.merge.allFields.filter (fun f =>
          isFieldEmpty f &&
          match lookupFieldElement l6c.doc f with
          | none => false
          | some i => isFieldElementEmpty (l6c.doc.elemAt i) f.type)
      else l6c.merge.allFields,
    doc := l6c.doc, counter := l6c.counter }

/-! ### Fill-back engine (form filling module, lines 1479-1761)

fillFormField(field, value) takes a string or boolean answer; answers
produced by JS null/undefined coerce to the strings "null"/"undefined"
under String(), modelled by dedicated constructors. -/

/-- An AI answer value as received by the fill-back engine. -/
inductive FillVal where
  | str (s : String)
  | bool (b : Bool)
  | null
  | undef
  deriving Repr, DecidableEq

/-- JS String() coercion of an answer value. -/
def jsToString : FillVal → String
  | .str s => s
  | .bool b => if b then "true" else "false"
  | .null => "null"
  | .undef => "undefined"

/-- The field types the normalizer treats as selection fields (the literal
disjunction in the source; custom-dropdown is not among them). -/
def selectionTypes : List String :=
  ["checkbox", "radio", "radio-group", "checkbox-group", "select", "multi-select"]

/-- normalizeAIResponse: booleans pass through; for the six selection types
the trimmed string is returned unchanged (empty means no selection); for
every other type - the text-like types and custom-dropdown - an
empty/null/undefined answer becomes the literal sentinel. -/
def normalizeAIResponse (value : FillVal) (fieldType : String) : FillVal :=
  match value with
  | .bool b => .bool b
  | v =>
    let strValue := jsTrim (jsToString v)
    if fieldType = "checkbox" || fieldType = "radio" ||
        fieldType = "radio-group" || fieldType = "checkbox-group" ||
        fieldType = "select" || fieldType = "multi-select" then
      .str strValue
    else if strValue = "" || strValue = "null" || strValue = "undefined" then
      .str "n/a"
    else .str strValue

/-- JS String.prototype.includes (substring containment). -/
def jsIncludes (s pat : String) : Bool :=
  s.data.tails.any (fun t => pat.data.isPrefixOf t)

/-- JS parseInt on a string: skip leading whitespace, optional sign, then a
non-empty digit prefix (remaining characters ignored); NaN becomes none. -/
def parseIntModel (s : String) : Option Int :=
  let chars := s.data.dropWhile (fun c => c = ' ' || c = '\t' || c = '\n' || c = '\r')
  let signAndRest : Bool × List Char :=
    match chars with
    | '-' :: rest => (true, rest)
    | '+' :: rest => (false, rest)
    | rest => (false, rest)
  let digits := signAndRest.2.takeWhile Char.isDigit
  if digits.isEmpty then none
  else
    let v : Int := Int.ofNat (digitsVal digits)
    some (if signAndRest.1 then -v else v)

/-- Outcome of the JSON.parse attempt on a checkbox-group answer: an array
of strings, some other well-formed JSON value (whose later .map access
throws and is swallowed by the catch-all, failing the fill), or a parse
failure (which falls back to comma splitting).  The model recognizes the
common literal forms; exotic numeric notations are treated as parse
failures. -/
inductive JsParse where
  | strArr (l : List String)
  | nonArr
  | failed
  deriving Repr, DecidableEq

/-- Is the string a simple JSON number literal (optional minus, digits,
optional fractional part). -/
def isNumberLit (s : String) : Bool :=
  let chars := match s.data with
    | '-' :: rest => rest
    | rest => rest
  let intPart := chars.takeWhile Char.isDigit
  let rest := chars.drop intPart.length
  if intPart.isEmpty then false
  else match rest with
    | [] => true
    | '.' :: frac => ¬frac.isEmpty && frac.all Char.isDigit
    | _ => false

/-- Is the string a JSON string literal without escapes. -/
def isQuotedLit (s : String) : Bool :=
  match s.data with
  | '"' :: rest =>
    match rest.reverse with
    | '"' :: mid => ¬(mid.reverse.contains '"') && rest.length ≥ 1
    | _ => false
  | _ => false

/-- Strip the quotes of a JSON string literal. -/
def unquote (s : String) : String := ((s.data.drop 1).dropLast).asString

/-- Model of JSON.parse for the checkbox-group answer. -/
def jsonParseModel (s : String) : JsParse :=
  let t := jsTrim s
  if t = "null" || t = "true" || t = "false" || isNumberLit t || isQuotedLit t then .nonArr
  else if jsStartsWith t "[" && jsEndsWith t "]" && t.length ≥ 2 then
    let inner := jsTrim ((t.drop 1).dropRight 1)
    if inner = "" then .strArr []
    else
      let items := (splitOnChar inner ',').map jsTrim
      if items.all isQuotedLit then .strArr (items.map unquote)
      else if items.all (fun it => isQuotedLit it || isNumberLit it ||
          it = "null" || it = "true" || it = "false") then .nonArr
      else .failed
  else .failed

/-- Select the option at index oi by the DOM semantics of setting
option.selected = true: exclusive for a single select, additive for a
multiple select. -/
def selectOptionAt (e : Elem) (oi : Nat) : Elem :=
  if e.multiple then
    { e with selectOptions :=
        (e.selectOptions.enum.map
          (fun p => if p.1 = oi then { p.2 with selected := true } else p.2)) }
  else
    { e with selectOptions :=
        (e.selectOptions.enum.map (fun p => { p.2 with selected := p.1 = oi })) }

/-- Set selectedIndex = oi: exclusive selection of the option at oi. -/
def setSelectedIndex (e : Elem) (oi : Nat) : Elem :=
  { e with selectOptions :=
      (e.selectOptions.enum.map (fun p => { p.2 with selected := p.1 = oi })) }

/-- Replace the element at index i of the document. -/
def Doc.setElem (doc : Doc) (i : Nat) (e : Elem) : Doc :=
  { doc with elems := doc.elems.set i e }

/-- Host semantics of assigning checked = true to a radio input: the radio
at index i is checked and, when it carries a non-empty name, every other
same-name radio input of the document is unchecked (native mutual
exclusivity of a radio group). -/
def Doc.checkRadio (doc : Doc) (i : Nat) : Doc :=
  let nm := (doc.elemAt i).name
  let doc2 :=
    if nm ≠ "" then
      { doc with elems := doc.elems.enum.map (fun p =>
          if p.1 ≠ i && p.2.tag = "input" && p.2.type = "radio" && p.2.name = nm then
            { p.2 with checked := false }
          else p.2) }
    else doc
  doc2.setChecked i true

/-- The text-like types of the first switch case of fillFormField. -/
def textLikeTypes : List String :=
  ["text", "email", "tel", "url", "password", "number", "date", "datetime-local",
   "time", "month", "week", "search", "color"]

/-- Text-like / textarea case: locate the element and set its value,
dispatching input and change events. -/
def fillTextLike (field : FormField) (normalizedStr : String) (doc : Doc) : Bool × Doc :=
  match lookupFieldElement doc field with
  | none => (false, doc)
  | some i => (true, doc.setValue i normalizedStr)

/-- Checkbox case: a boolean answer is applied directly; a string answer
checks the box exactly for true/yes (case-insensitively). -/
def fillCheckbox (field : FormField) (normalizedValue : FillVal) (doc : Doc) : Bool × Doc :=
  match lookupFieldElement doc field with
  | none => (false, doc)
  | some i =>
    match normalizedValue with
    | .bool b => (true, doc.setChecked i b)
    | v =>
      let strValue := jsToLower (jsToString v)
      (true, doc.setChecked i (strValue = "true" || strValue = "yes"))

/-- One iteration of the plain-radio matching loop. -/
def radioStep (valueStr fieldId : String) (d : Doc) (j : Nat) : Doc :=
  let r := d.elemAt j
  if jsToLower r.value = valueStr || r.id = fieldId then d.checkRadio j else d

/-- Plain radio case: every same-name radio whose value matches
case-insensitively (or whose id equals the descriptor's id) is checked;
the result is true whether or not anything matched. -/
def fillRadio (field : FormField) (normalizedStr : String) (doc : Doc) : Bool × Doc :=
  let valueStr := jsToLower normalizedStr
  let radios := ((doc.elems.enum.filter (fun (p : Nat × Elem) =>
    p.2.tag = "input" && p.2.type = "radio" && p.2.name = field.name.getD "")).map (·.1))
  (true, radios.foldl (radioStep valueStr field.id) doc)

/-- One iteration of the radio-group member-option loop. -/
def rgOptStep (valueStr : String) (acc : Doc × Bool) (opt : FFOption) : Doc × Bool :=
  match opt.elemRef with
  | some j =>
    if jsToLower opt.value = valueStr || jsToLower opt.label = valueStr then
      (acc.1.checkRadio j, true)
    else acc
  | none => acc

/-- One iteration of the radio-group same-name fallback loop. -/
def rgFallbackStep (valueStr : String) (acc : Doc × Bool) (j : Nat) : Doc × Bool :=
  let r := acc.1.elemAt j
  if jsToLower r.value = valueStr then (acc.1.checkRadio j, true) else acc

/-- Radio-group case: check every member option whose value or label
matches case-insensitively; if none did, fall back to the same-name
document query; a non-empty answer with no match fails. -/
def fillRadioGroup (field : FormField) (normalizedStr : String) (doc : Doc) : Bool × Doc :=
  let valueStr := jsToLower normalizedStr
  let step1 := (field.options.getD []).foldl (rgOptStep valueStr) (doc, false)
  let step2 :=
    if !step1.2 && field.groupName.getD "" ≠ "" then
      let radios := ((step1.1.elems.enum.filter (fun (p : Nat × Elem) =>
        p.2.tag = "input" && p.2.type = "radio" &&
        p.2.name = field.groupName.getD "")).map (·.1))
      radios.foldl (rgFallbackStep valueStr) step1
    else step1
  if !step2.2 && valueStr ≠ "" then (false, step2.1) else (true, step2.1)

/-- One iteration of the checkbox-group member loop: assigns the member's
checked state to its match status and counts matches. -/
def cbGroupStep (valueStrs : List String) (acc : Doc × Nat) (opt : FFOption) : Doc × Nat :=
  let shouldBeChecked := valueStrs.contains (jsToLower opt.value) ||
    valueStrs.contains (jsToLower opt.label)
  match opt.elemRef with
  | some j =>
    (acc.1.setChecked j shouldBeChecked,
     if shouldBeChecked then acc.2 + 1 else acc.2)
  | none => acc

/-- Checkbox-group case: parse the answer as a JSON list or a
comma-separated list, then assign every member's checked state to its
match status; fails when nothing matched a non-empty selection, or when
the JSON attempt yields a non string-array (whose later member-mapping
throws into the catch-all). -/
def fillCheckboxGroup (field : FormField) (normalizedStr : String) (doc : Doc) : Bool × Doc :=
  match jsonParseModel normalizedStr with
  | .nonArr => (false, doc)
  | p =>
    let selectedValues : List String := match p with
      | .strArr l => l
      | _ => (splitOnChar normalizedStr ',').map (fun v => jsTrim v)
    let valueStrs := selectedValues.map jsToLower
    let res := (field.options.getD []).foldl (cbGroupStep valueStrs) (doc, 0)
    if res.2 = 0 && valueStrs.length > 0 && valueStrs.headD "" ≠ "" then (false, res.1)
    else (true, res.1)

/-- Select / multi-select case: one scan for the first option whose value
equals the answer or whose text contains it case-insensitively; otherwise
the answer is tried as a numeric index; otherwise the fill fails. -/
def fillSelect (field : FormField) (normalizedStr : String) (doc : Doc) : Bool × Doc :=
  match lookupFieldElement doc field with
  | none => (false, doc)
  | some i =>
    let e := doc.elemAt i
    let valueStr := normalizedStr
    match e.selectOptions.findIdx? (fun o =>
        o.value = valueStr || jsIncludes (jsToLower o.text) (jsToLower valueStr)) with
    | some oi => (true, doc.setElem i (selectOptionAt e oi))
    | none =>
      match parseIntModel valueStr with
      | some idx =>
        if 0 ≤ idx && idx < Int.ofNat e.selectOptions.length then
          (true, doc.setElem i (setSelectedIndex e idx.toNat))
        else (false, doc)
      | none => (false, doc)

/-- fillFormField: fill one field from its descriptor, returning the
success flag and the updated document.  The source wraps the body in a
catch-all that converts any exception into a false return; the one
modelled exception path is the checkbox-group JSON mismatch.  The
custom-dropdown branch clicks the container and finishes its option
matching asynchronously after returning, so its synchronous result is
true whenever the container was found; unknown types (including file,
hidden and range, which the switch does not handle) fail. -/
def fillFormField (field : FormField) (value : FillVal) (doc : Doc) : Bool × Doc :=
  let normalizedValue := normalizeAIResponse value field.type
  let normalizedStr := jsToString normalizedValue
  if textLikeTypes.contains field.type then fillTextLike field normalizedStr doc
  else if field.type = "textarea" then fillTextLike field normalizedStr doc
  else if field.type = "checkbox" then fillCheckbox field normalizedValue doc
  else if field.type = "radio" then fillRadio field normalizedStr doc
  else if field.type = "radio-group" then fillRadioGroup field normalizedStr doc
  else if field.type = "checkbox-group" then fillCheckboxGroup field normalizedStr doc
  else if field.type = "select" || field.type = "multi-select" then
    fillSelect field normalizedStr doc
  else if field.type = "custom-dropdown" then
    match lookupFieldElement doc field with
    | none => (false, doc)
    | some _ => (true, doc)
  else (false, doc)

instance : Inhabited FormField := ⟨{ id := "" }⟩

/-- The radio-group member matching predicate of the fill code (value or
label equal to the lowered answer). -/
def rgOptMatches (valueStr : String) (opt : FFOption) : Prop :=
  jsToLower opt.value = valueStr ∨ jsToLower opt.label = valueStr

instance (valueStr : String) (opt : FFOption) : Decidable (rgOptMatches valueStr opt) := by
  unfold rgOptMatches; infer_instance

/-- The checkbox-group member matching test of the fill code. -/
def cbMatches (valueStrs : List String) (opt : FFOption) : Bool :=
  valueStrs.contains (jsToLower opt.value) || valueStrs.contains (jsToLower opt.label)

/-! ### Settle waiter (content_script.ts lines 14-138)

waitForAutofillComplete polls every 500 ms; each tick first resolves on
timeout (elapsed at least maxWaitTime, default 10000), then on the
completion check.  The mutation-observer path re-runs the same check on
DOM activity and can only resolve earlier; in the claim's scenario (no
indicator ever appears, no value ever changes) the document never mutates
and the observer never fires, so the poll/timeout path below is exact. -/

/-- The completion condition: checkUIState() && checkFieldValues(), where
checkFieldValues is filledCount > 0 || checkUIState(), as a function of
the elapsed time. -/
def settleCheck (ui fieldsFilled : Nat → Bool) (t : Nat) : Bool :=
  ui t && (fieldsFilled t || ui t)

/-- The polling loop: at tick k (elapsed 500k ms), resolve on timeout
first, then on the completion check, else keep polling.  Fuel bounds the
recursion and is always supplied large enough to reach the timeout tick. -/
def pollLoop (maxWaitTime : Nat) (check : Nat → Bool) : Nat → Nat → Nat
  | 0, k => 500 * k
  | fuel + 1, k =>
    if 500 * k ≥ maxWaitTime then 500 * k
    else if check (500 * k) then 500 * k
    else pollLoop maxWaitTime check fuel (k + 1)

/-- waitForAutofillComplete: the elapsed time at which the wait resolves -
immediately when the initial check passes, else at the first poll tick
that passes the check or reaches the timeout. -/
def waitForAutofillComplete (maxWaitTime : Nat) (check : Nat → Bool) : Nat :=
  if check 0 then 0 else pollLoop maxWaitTime check (maxWaitTime / 500 + 1) 1

/-- A single empty enabled text input. -/
def docText : Doc := { elems := [ { type := "text", id := "t1" } ] }

/-! ### Concrete documents used as test inputs -/

/-- Two enabled radio buttons sharing the name consent, both carrying
document ids. -/
def docConsent : Doc :=
  { elems := [
      { type := "radio", id := "r1", name := "consent", value := "yes" },
      { type := "radio", id := "r2", name := "consent", value := "no" } ] }

/-- Two enabled radio buttons sharing a name but carrying no document ids. -/
def docUnnamedRadios : Doc :=
  { elems := [
      { type := "radio", name := "g", value := "yes" },
      { type := "radio", name := "g", value := "no" } ] }

/-- A single enabled, named radio button. -/
def docRadioSolo : Doc :=
  { elems := [ { type := "radio", id := "solo", name := "lonely", value := "v" } ] }

/-- A fieldset containing two enabled checkboxes. -/
def docCbGroup : Doc :=
  { elems := [
      { type := "checkbox", id := "cb1", name := "opts", value := "a", fieldset := some 0 },
      { type := "checkbox", id := "cb2", name := "opts", value := "b", fieldset := some 0 } ],
    fieldsets := [ { className := "choices", id := "fs1", legend := "Choose" } ] }

/-- One enabled radio named g with value yes. -/
def docRadioYes : Doc :=
  { elems := [ { type := "radio", id := "r1", name := "g", value := "yes" } ] }

/-- A plain radio descriptor addressing the g radios. -/
def fieldRadioG : FormField :=
  { id := "x", name := some "g", type := "radio", selector := "#x" }

/-- Two checkboxes, the first one checked. -/
def docCheckboxPair : Doc :=
  { elems := [
      { type := "checkbox", id := "a1", value := "a", checked := true },
      { type := "checkbox", id := "b1", value := "b" } ] }

/-- A checkbox-group descriptor over the two checkboxes. -/
def fieldCbGroup : FormField :=
  { id := "grp", type := "checkbox-group",
    options := some [
      { value := "a", label := "A", id := "a1", elemRef := some 0 },
      { value := "b", label := "B", id := "b1", elemRef := some 1 } ] }

/-- A select whose first option's text contains the letter x while only the
second option's value equals x. -/
def docSelectOr : Doc :=
  { elems := [
      { tag := "select", type := "", id := "s1",
        selectOptions := [ { value := "1", text := "apple x" },
                           { value := "x", text := "two" } ] } ] }

/-- A select descriptor addressing it. -/
def fieldSelectOr : FormField := { id := "s1", type := "select", selector := "#s1" }

/-- Two radios named w (Yes unchecked, No checked). -/
def docRadioPair : Doc :=
  { elems := [
      { type := "radio", id := "y1", name := "w", value := "Yes" },
      { type := "radio", id := "n1", name := "w", value := "No", checked := true } ] }

/-- The Yes member option of the radio pair. -/
def optYes : FFOption := { value := "Yes", label := "Yes", id := "y1", elemRef := some 0 }

/-- A radio-group descriptor over the radio pair. -/
def fieldRadioGroupW : FormField :=
  { id := "grp2", name := some "w", groupName := some "w", type := "radio-group",
    options := some [ optYes,
      { value := "No", label := "No", id := "n1", elemRef := some 1 } ] }

/-- The option matching precedence the claim describes - an exact value
match anywhere in the list takes priority over any substring match -
modelled from the claim's words for comparison with the implementation. -/
def claimedSelectMatchIdx (opts : List SelectOpt) (valueStr : String) : Option Nat :=
  match opts.findIdx? (fun o => o.value = valueStr) with
  | some i => some i
  | none => opts.findIdx? (fun o => jsIncludes (jsToLower o.text) (jsToLower valueStr))

/-- An element the custom-dropdown pass would match: the union of the five
dropdownMatchers. -/
def dropdownLikeElem (e : Elem) : Bool :=
  e.role = "combobox" || e.classes.contains "select-shell" ||
  e.classes.contains "select__control" || e.ariaHasPopup = "listbox" ||
  (e.ariaHasPopup = "true" && e.ariaExpanded)

/-- All member-control ids consumed by group synthesis in one
detectFormFields invocation. -/
def groupMemberIds (doc : Doc) (c : Nat) : List String := dfRadioIds doc c ++ dfCbIds doc c

/-- Two id-carrying radios forming one group plus an id-carrying text
input. -/
def docC2 : Doc :=
  { elems := [
      { type := "radio", id := "r1", name := "consent", value := "yes" },
      { type := "radio", id := "r2", name := "consent", value := "no" },
      { type := "text", id := "t1" } ] }

/-! ### Proof development: decimal printer injectivity -/

theorem digitVal_digitChar (d : Nat) (hd : d < 10) : digitVal (Nat.digitChar d) = d := by
  have h : ∀ f : Fin 10, digitVal (Nat.digitChar f.val) = f.val := by decide
  exact h ⟨d, hd⟩

theorem toDigitsCore_append (fuel : Nat) :
    ∀ (n : Nat) (ds : List Char),
      Nat.toDigitsCore 10 fuel n ds = Nat.toDigitsCore 10 fuel n [] ++ ds := by
  induction fuel with
  | zero => intro n ds; simp [Nat.toDigitsCore]
  | succ fuel ih =>
    intro n ds
    simp only [Nat.toDigitsCore]
    by_cases h : n / 10 = 0
    · simp [h]
    · simp only [h, if_neg h]
      rw [ih (n / 10) (Nat.digitChar (n % 10) :: ds),
          ih (n / 10) [Nat.digitChar (n % 10)]]
      simp

theorem digitsVal_toDigitsCore (fuel : Nat) :
    ∀ n : Nat, n < fuel → digitsVal (Nat.toDigitsCore 10 fuel n []) = n := by
  induction fuel with
  | zero => intro n hn; omega
  | succ fuel ih =>
    intro n hn
    simp only [Nat.toDigitsCore]
    by_cases h : n / 10 = 0
    · have hlt : n < 10 := by
        by_contra hc
        have : 1 ≤ n / 10 := Nat.le_div_iff_mul_le (by norm_num) |>.mpr (by omega)
        omega
      simp only [h, if_pos]
      simp only [digitsVal, List.foldl_cons, List.foldl_nil, Nat.mul_zero, Nat.zero_add]
      rw [Nat.mod_eq_of_lt hlt]
      exact digitVal_digitChar n hlt
    · have hge : 10 ≤ n := by
        by_contra hc
        exact h (Nat.div_eq_of_lt (by omega))
      simp only [if_neg h]
      rw [toDigitsCore_append fuel (n / 10) [Nat.digitChar (n % 10)]]
      have hrec : digitsVal (Nat.toDigitsCore 10 fuel (n / 10) []) = n / 10 := by
        apply ih
        have h1 : n / 10 < n := Nat.div_lt_self (by omega) (by norm_num)
        omega
      simp only [digitsVal, List.foldl_append, List.foldl_cons, List.foldl_nil]
      have : List.foldl (fun a c => 10 * a + digitVal c) 0
          (Nat.toDigitsCore 10 fuel (n / 10) []) = n / 10 := hrec
      rw [this, digitVal_digitChar (n % 10) (Nat.mod_lt n (by omega))]
      omega

theorem natRepr_injective : Function.Injective Nat.repr := by
  intro m n h
  have hlist : Nat.toDigits 10 m = Nat.toDigits 10 n := by
    have := congrArg String.data h
    simpa [Nat.repr, List.asString] using this
  have hm := digitsVal_toDigitsCore (m + 1) m (Nat.lt_succ_self m)
  have hn := digitsVal_toDigitsCore (n + 1) n (Nat.lt_succ_self n)
  unfold Nat.toDigits at hlist
  rw [← hm, ← hn, hlist]

theorem string_data_inj {a b : String} (h : a.data = b.data) : a = b := by
  cases a; cases b; exact congrArg String.mk h

theorem fieldIdString_injective : Function.Injective fieldIdString := by
  intro a b h
  have hdata := congrArg String.data h
  simp only [fieldIdString, String.data_append] at hdata
  exact natRepr_injective (string_data_inj (List.append_cancel_left hdata))

/-! ### Generic fold invariants -/

theorem foldlInv {α σ : Type} {P : σ → Prop} (step : σ → α → σ)
    (h : ∀ s a, P s → P (step s a)) :
    ∀ (l : List α) (s : σ), P s → P (l.foldl step s) := by
  intro l
  induction l with
  | nil => intro s hs; exact hs
  | cons a t ih => intro s hs; exact ih (step s a) (h s a hs)

theorem foldlInvMem {α σ : Type} {P : σ → Prop} (step : σ → α → σ) :
    ∀ (l : List α) (s : σ), P s → (∀ a ∈ l, ∀ t, P t → P (step t a)) →
      P (l.foldl step s) := by
  intro l
  induction l with
  | nil => intro s hs _; exact hs
  | cons a t ih =>
    intro s hs h
    exact ih (step s a) (h a (List.mem_cons_self a t) s hs)
      (fun b hb u hu => h b (List.mem_cons_of_mem a hb) u hu)

end FieldDetect

namespace FieldDetect

/-! ### Claim C10 -/

/-- C10: generateFieldId is injective across calls within one page session:
distinct counter states yield distinct identifiers (the fixed prefix
followed by the decimal counter), and each call strictly increases the
counter, so successive calls never collide. -/
theorem generateFieldId_fresh (c1 c2 : Nat) (h : c1 ≠ c2) :
    (generateFieldId c1).1 ≠ (generateFieldId c2).1 ∧
    (generateFieldId c1).1 = "ai-applier-field-" ++ Nat.repr (c1 + 1) ∧
    (generateFieldId c1).2 = c1 + 1 ∧ c1 < (generateFieldId c1).2 := by
  refine ⟨?_, rfl, rfl, Nat.lt_succ_self c1⟩
  intro heq
  simp only [generateFieldId] at heq
  have := fieldIdString_injective heq
  omega

theorem generateFieldId_fresh_witness :
    (0 : Nat) ≠ 1 ∧
    ((generateFieldId 0).1 ≠ (generateFieldId 1).1 ∧
     (generateFieldId 0).1 = "ai-applier-field-" ++ Nat.repr (0 + 1) ∧
     (generateFieldId 0).2 = 0 + 1 ∧ 0 < (generateFieldId 0).2) :=
  ⟨by decide, generateFieldId_fresh 0 1 (by decide)⟩

/-! ### Claim C5 -/

set_option maxRecDepth 4000 in
/-- C5 counterexample: a lone named radio button does become a radio-group
descriptor of size 1 — discovery on a document holding one enabled radio
named lonely emits exactly one radio-group field aggregating one member,
contradicting the claim that groups of size 1 are never emitted. -/
theorem radioGroup_sizeOne_counterexample :
    ((detectFormFields docRadioSolo 0 false).fields.map
      (fun f => (f.type, (f.options.getD []).length, f.isGroup))) =
      [("radio-group", 1, true)] := by rfl

/-- C5 (amended): checkbox-group descriptors always aggregate at least 2
member controls (a lone checkbox never becomes a group), but radio grouping
only rejects empty groups, so every radio-group descriptor is only
guaranteed to have at least 1 member and a lone named radio does become a
size-1 group. -/
theorem groupSynthesis_sizes (doc : Doc) (c : Nat) :
    (∀ f ∈ (groupCheckboxes doc c).1, 2 ≤ (f.options.getD []).length) ∧
    (∀ f ∈ (groupRadioButtons doc c).1, 1 ≤ (f.options.getD []).length) := by
  constructor
  · have h := @foldlInv CbGroup (List FormField × Nat)
      (fun acc => ∀ f ∈ acc.1, 2 ≤ (f.options.getD []).length)
      (fun acc g =>
        if g.members.length < 2 then acc
        else
          let fc := mkCheckboxGroupField doc g acc.2
          (acc.1 ++ [fc.1], fc.2))
      ?_ (checkboxGroupsOf doc) ([], c) ?_
    · exact h
    · intro s g hs
      by_cases hlen : g.members.length < 2
      · simpa [hlen] using hs
      · simp only [hlen, if_neg]
        intro f hf
        rcases List.mem_append.mp hf with hf1 | hf2
        · exact hs f hf1
        · have hfe : f = (mkCheckboxGroupField doc g s.2).1 := by
            simpa using hf2
          subst hfe
          simp only [mkCheckboxGroupField, Option.getD_some, List.length_map]
          omega
    · intro f hf; simp at hf
  · have h := @foldlInv (String × List Nat) (List FormField × Nat)
      (fun acc => ∀ f ∈ acc.1, 1 ≤ (f.options.getD []).length)
      (fun acc g =>
        if g.2.length = 0 then acc
        else
          let fc := mkRadioGroupField doc g.1 g.2 acc.2
          (acc.1 ++ [fc.1], fc.2))
      ?_ (radioGroupsOf doc) ([], c) ?_
    · exact h
    · intro s g hs
      by_cases hlen : g.2.length = 0
      · simpa [hlen] using hs
      · simp only [hlen, if_neg]
        intro f hf
        rcases List.mem_append.mp hf with hf1 | hf2
        · exact hs f hf1
        · have hfe : f = (mkRadioGroupField doc g.1 g.2 s.2).1 := by
            simpa using hf2
          subst hfe
          simp only [mkRadioGroupField, Option.getD_some, List.length_map]
          omega
    · intro f hf; simp at hf

set_option maxRecDepth 4000 in
theorem groupSynthesis_sizes_witness :
    ((groupCheckboxes docCbGroup 0).1.headD default ∈ (groupCheckboxes docCbGroup 0).1) ∧
    2 ≤ (((groupCheckboxes docCbGroup 0).1.headD default).options.getD []).length :=
  ⟨List.Mem.head _, (groupSynthesis_sizes docCbGroup 0).1 _ (List.Mem.head _)⟩

/-! ### Claim C3 -/

/-- C3 counterexample: an empty answer for a custom-dropdown field - a
selection-capable type per the claim - is rewritten to the sentinel rather
than preserved as no selection. -/
theorem normalize_customDropdown_counterexample :
    normalizeAIResponse (.str "") "custom-dropdown" = .str "n/a" ∧
    FillVal.str "n/a" ≠ .str "" := by decide

theorem selectionTypes_cond (t : String) (h : t ∈ selectionTypes) :
    (t = "checkbox" || t = "radio" || t = "radio-group" || t = "checkbox-group" ||
     t = "select" || t = "multi-select") = true := by
  simp only [selectionTypes, List.mem_cons, List.not_mem_nil, or_false] at h
  rcases h with h | h | h | h | h | h <;> subst h <;> simp

theorem selectionTypes_cond_not (t : String) (h : t ∉ selectionTypes) :
    (t = "checkbox" || t = "radio" || t = "radio-group" || t = "checkbox-group" ||
     t = "select" || t = "multi-select") = false := by
  simp only [selectionTypes, List.mem_cons, List.not_mem_nil, or_false, not_or] at h
  obtain ⟨h1, h2, h3, h4, h5, h6⟩ := h
  simp [h1, h2, h3, h4, h5, h6]

/-- C3 (amended): booleans pass through normalization unchanged; for the
six selection types checkbox, radio, radio-group, checkbox-group, select
and multi-select an answer is passed through trimmed, so emptiness is
preserved as no selection; for every other type - the plain text-like
types AND custom-dropdown, which the selection list does not include - an
empty, null-coerced or undefined-coerced answer is rewritten to the
literal sentinel n/a. -/
theorem normalizeAIResponse_spec :
    (∀ (b : Bool) (t : String), normalizeAIResponse (.bool b) t = .bool b) ∧
    (∀ (v : FillVal) (t : String), t ∈ selectionTypes → (∀ b, v ≠ .bool b) →
      normalizeAIResponse v t = .str (jsTrim (jsToString v))) ∧
    (∀ (v : FillVal) (t : String), t ∉ selectionTypes → (∀ b, v ≠ .bool b) →
      (jsTrim (jsToString v) = "" ∨ jsTrim (jsToString v) = "null" ∨
        jsTrim (jsToString v) = "undefined") →
      normalizeAIResponse v t = .str "n/a") := by
  refine ⟨fun b t => rfl, ?_, ?_⟩
  · intro v t ht hb
    have hc := selectionTypes_cond t ht
    cases v with
    | bool b => exact absurd rfl (hb b)
    | str s => simp [normalizeAIResponse, hc]
    | null => simp [normalizeAIResponse, hc]
    | undef => simp [normalizeAIResponse, hc]
  · intro v t ht hb hval
    have hc := selectionTypes_cond_not t ht
    cases v with
    | bool b => exact absurd rfl (hb b)
    | str s =>
      simp only [normalizeAIResponse, hc, Bool.false_eq_true, if_false]
      have : (jsTrim (jsToString (FillVal.str s)) = "" ||
          jsTrim (jsToString (FillVal.str s)) = "null" ||
          jsTrim (jsToString (FillVal.str s)) = "undefined") = true := by
        rcases hval with h | h | h <;> simp [h]
      simp [this]
    | null =>
      simp only [normalizeAIResponse, hc, Bool.false_eq_true, if_false]
      have : (jsTrim (jsToString FillVal.null) = "" ||
          jsTrim (jsToString FillVal.null) = "null" ||
          jsTrim (jsToString FillVal.null) = "undefined") = true := by
        rcases hval with h | h | h <;> simp [h]
      simp [this]
    | undef =>
      simp only [normalizeAIResponse, hc, Bool.false_eq_true, if_false]
      have : (jsTrim (jsToString FillVal.undef) = "" ||
          jsTrim (jsToString FillVal.undef) = "null" ||
          jsTrim (jsToString FillVal.undef) = "undefined") = true := by
        rcases hval with h | h | h <;> simp [h]
      simp [this]

theorem normalizeAIResponse_spec_witness :
    normalizeAIResponse (.bool true) "checkbox" = .bool true ∧
    normalizeAIResponse (.str "") "select" = .str (jsTrim "") ∧
    normalizeAIResponse .null "text" = .str "n/a" :=
  ⟨normalizeAIResponse_spec.1 true "checkbox",
   normalizeAIResponse_spec.2.1 (.str "") "select" (by decide) (by decide),
   normalizeAIResponse_spec.2.2 .null "text" (by decide) (by decide) (by decide)⟩

/-! ### Helper lemmas for the fill-back engine -/

theorem foldlNoop {α σ : Type} (step : σ → α → σ) :
    ∀ (l : List α) (s : σ), (∀ a ∈ l, step s a = s) → l.foldl step s = s := by
  intro l
  induction l with
  | nil => intro s _; rfl
  | cons a t ih =>
    intro s h
    have ha := h a (List.mem_cons_self a t)
    simp only [List.foldl_cons, ha]
    exact ih s (fun b hb => h b (List.mem_cons_of_mem a hb))

theorem mem_enumFilterMap {q : Nat × Elem → Bool} {doc : Doc} {j : Nat}
    (h : j ∈ ((doc.elems.enum.filter q).map (·.1))) :
    j < doc.elems.length ∧ q (j, doc.elemAt j) = true := by
  rcases List.mem_map.mp h with ⟨p, hp, hp1⟩
  rcases List.mem_filter.mp hp with ⟨hpe, hq⟩
  have hidx := List.mem_enum_iff_getElem?.mp hpe
  have hlt : p.1 < doc.elems.length := by
    rcases List.getElem?_eq_some.mp hidx with ⟨h1, _⟩
    exact h1
  have hAt : doc.elemAt p.1 = p.2 := by
    simp [Doc.elemAt, List.getD, hidx]
  subst hp1
  exact ⟨hlt, by rw [hAt]; exact (by cases p; exact hq)⟩

theorem elemAt_mem {doc : Doc} {j : Nat} (h : j < doc.elems.length) :
    doc.elemAt j ∈ doc.elems := by
  have : doc.elemAt j = doc.elems[j] := by
    simp [Doc.elemAt, List.getD_eq_getElem?_getD, List.getElem?_eq_getElem h]
  rw [this]
  exact List.getElem_mem h

/-- A failed radio-group match (no member option and no same-name document
radio matches a non-empty answer) returns false and leaves the document
untouched. -/
theorem fillRadioGroup_noMatch (field : FormField) (s : String) (doc : Doc)
    (hs : jsToLower s ≠ "")
    (hopts : ∀ opt ∈ field.options.getD [],
      ¬(jsToLower opt.value = jsToLower s ∨ jsToLower opt.label = jsToLower s))
    (hdoc : ∀ e ∈ doc.elems,
      ¬(e.tag = "input" ∧ e.type = "radio" ∧ e.name = field.groupName.getD "" ∧
        jsToLower e.value = jsToLower s)) :
    fillRadioGroup field s doc = (false, doc) := by
  simp only [fillRadioGroup]
  have h1 : (field.options.getD []).foldl (rgOptStep (jsToLower s))
      (doc, false) = (doc, false) := by
    apply foldlNoop
    intro opt hopt
    have := hopts opt hopt
    unfold rgOptStep
    cases he : opt.elemRef with
    | none => simp
    | some j =>
      simp only []
      have hcond : (jsToLower opt.value = jsToLower s ||
          jsToLower opt.label = jsToLower s) = false := by
        simp only [Bool.or_eq_false_iff, decide_eq_false_iff_not]
        constructor
        · intro hv; exact this (Or.inl hv)
        · intro hv; exact this (Or.inr hv)
      simp [hcond]
  rw [h1]
  have h2 : (((doc.elems.enum.filter (fun (p : Nat × Elem) =>
      p.2.tag = "input" && p.2.type = "radio" &&
      p.2.name = field.groupName.getD "")).map (·.1))).foldl
      (rgFallbackStep (jsToLower s)) (doc, false) = (doc, false) := by
    apply foldlNoop
    intro j hj
    have hm := mem_enumFilterMap hj
    have he := hdoc (doc.elemAt j) (elemAt_mem hm.1)
    have hq := hm.2
    simp only [Bool.and_eq_true, decide_eq_true_eq] at hq
    have hv : ¬ jsToLower (doc.elemAt j).value = jsToLower s := by
      intro hc
      exact he ⟨hq.1.1, hq.1.2, hq.2, hc⟩
    simp [rgFallbackStep, hv]
  by_cases hgn : field.groupName.getD "" = ""
  · simp [hgn, hs]
  · simp [hgn, hs, h2]

/-- A select fill with no option match and no usable numeric index
returns false and leaves the document untouched. -/
theorem fillSelect_noMatch (field : FormField) (s : String) (doc : Doc) (i : Nat)
    (hlook : lookupFieldElement doc field = some i)
    (hfind : (doc.elemAt i).selectOptions.findIdx? (fun o =>
      o.value = s || jsIncludes (jsToLower o.text) (jsToLower s)) = none)
    (hidx : ∀ idx, parseIntModel s = some idx →
      ¬(0 ≤ idx ∧ idx < Int.ofNat (doc.elemAt i).selectOptions.length)) :
    fillSelect field s doc = (false, doc) := by
  simp only [fillSelect, hlook, hfind]
  cases hp : parseIntModel s with
  | none => rfl
  | some idx =>
    have h2 := hidx idx hp
    have h3 : Int.ofNat ((doc.elemAt i).selectOptions.length) =
        (((doc.elemAt i).selectOptions.length : Nat) : Int) := rfl
    rw [h3] at h2
    simp
    omega

/-- A checkbox-group fill whose answer JSON-parses to a non string-array
throws at the member mapping and is converted to a false return by the
catch-all, with no document write. -/
theorem fillCheckboxGroup_nonArr (field : FormField) (s : String) (doc : Doc)
    (hjson : jsonParseModel s = .nonArr) :
    fillCheckboxGroup field s doc = (false, doc) := by
  simp only [fillCheckboxGroup, hjson]

/-- A checkbox-group fill on the comma-separated path whose first selection
is non-empty and matches no member option returns false. -/
theorem fillCheckboxGroup_noMatch (field : FormField) (s : String) (doc : Doc)
    (hjson : jsonParseModel s = .failed)
    (hhead : (((splitOnChar s ',').map (fun v => jsTrim v)).map jsToLower).headD "" ≠ "")
    (hopts : ∀ opt ∈ field.options.getD [],
      ¬((((splitOnChar s ',').map (fun v => jsTrim v)).map jsToLower).contains
          (jsToLower opt.value) = true ∨
        (((splitOnChar s ',').map (fun v => jsTrim v)).map jsToLower).contains
          (jsToLower opt.label) = true)) :
    (fillCheckboxGroup field s doc).1 = false := by
  simp only [fillCheckboxGroup, hjson]
  have hcount : ((field.options.getD []).foldl
      (cbGroupStep (((splitOnChar s ',').map (fun v => jsTrim v)).map jsToLower))
      (doc, 0)).2 = 0 := by
    exact @foldlInvMem FFOption (Doc × Nat) (fun acc => acc.2 = 0)
      (cbGroupStep (((splitOnChar s ',').map (fun v => jsTrim v)).map jsToLower))
      (field.options.getD []) (doc, 0) rfl (by
        intro opt hopt t ht
        have hno := hopts opt hopt
        have hsb : ((((splitOnChar s ',').map (fun v => jsTrim v)).map jsToLower).contains
            (jsToLower opt.value) ||
          (((splitOnChar s ',').map (fun v => jsTrim v)).map jsToLower).contains
            (jsToLower opt.label)) = false := by
          simp only [Bool.or_eq_false_iff]
          constructor
          · cases hc : (((splitOnChar s ',').map (fun v => jsTrim v)).map jsToLower).contains
                (jsToLower opt.value) with
            | false => rfl
            | true => exact absurd (Or.inl hc) hno
          · cases hc : (((splitOnChar s ',').map (fun v => jsTrim v)).map jsToLower).contains
                (jsToLower opt.label) with
            | false => rfl
            | true => exact absurd (Or.inr hc) hno
        unfold cbGroupStep
        cases he : opt.elemRef with
        | none => simpa using ht
        | some j =>
          simp only [hsb]
          simp [ht])
  have hlen : (((splitOnChar s ',').map (fun v => jsTrim v)).map jsToLower).length > 0 := by
    cases hl : ((splitOnChar s ',').map (fun v => jsTrim v)).map jsToLower with
    | nil => rw [hl] at hhead; simp at hhead
    | cons a t => simp
  split
  · rfl
  · rename_i hcond
    exfalso
    apply hcond
    simp only [Bool.and_eq_true, decide_eq_true_eq]
    exact ⟨⟨hcount, hlen⟩, hhead⟩

/-! ### Claim C4 -/

/-- C4 counterexample: a plain radio fill whose value matches no same-name
radio (and no id) returns true and changes nothing - not false as the
claim requires for a selection-capable type with no matching option. -/
theorem fillRadio_noMatch_counterexample :
    fillFormField fieldRadioG (.str "maybe") docRadioYes = (true, docRadioYes) := by rfl

/-- C4 (amended): fillFormField is total (the catch-all converts the one
modelled exception, a checkbox-group answer that JSON-parses to a non
string-array, into a false return) and fails exactly by returning false
when: the target element of an element-addressed type is not found; the
field type is unhandled (including file, hidden and range); a non-empty
radio-group answer matches no member option and no same-name radio; a
select answer matches no option by value or substring and is unusable as
an index; or a checkbox-group selection list matches no member.  Contrary
to the original claim, a plain radio fill with no matching radio still
returns true, and a custom-dropdown fill returns true whenever the
container exists (its option matching happens asynchronously after the
boolean has been returned). -/
theorem fillFormField_failure_semantics :
    (∀ (field : FormField) (v : FillVal) (doc : Doc),
      (field.type ∈ textLikeTypes ∨ field.type = "textarea" ∨ field.type = "checkbox" ∨
       field.type = "select" ∨ field.type = "multi-select" ∨
       field.type = "custom-dropdown") →
      lookupFieldElement doc field = none → (fillFormField field v doc).1 = false) ∧
    (∀ (field : FormField) (v : FillVal) (doc : Doc), field.type = "radio" →
      (fillFormField field v doc).1 = true) ∧
    (∀ (field : FormField) (v : FillVal) (doc : Doc) (i : Nat),
      field.type = "custom-dropdown" → lookupFieldElement doc field = some i →
      (fillFormField field v doc).1 = true) ∧
    (∀ (field : FormField) (v : FillVal) (doc : Doc),
      field.type ∉ textLikeTypes →
      field.type ∉ ["textarea", "checkbox", "radio", "radio-group", "checkbox-group",
        "select", "multi-select", "custom-dropdown"] →
      fillFormField field v doc = (false, doc)) ∧
    (∀ (field : FormField) (v : FillVal) (doc : Doc), field.type = "radio-group" →
      fillFormField field v doc =
        fillRadioGroup field (jsToString (normalizeAIResponse v "radio-group")) doc) ∧
    (∀ (field : FormField) (s : String) (doc : Doc),
      jsToLower s ≠ "" →
      (∀ opt ∈ field.options.getD [],
        ¬(jsToLower opt.value = jsToLower s ∨ jsToLower opt.label = jsToLower s)) →
      (∀ e ∈ doc.elems,
        ¬(e.tag = "input" ∧ e.type = "radio" ∧ e.name = field.groupName.getD "" ∧
          jsToLower e.value = jsToLower s)) →
      fillRadioGroup field s doc = (false, doc)) ∧
    (∀ (field : FormField) (s : String) (doc : Doc) (i : Nat),
      lookupFieldElement doc field = some i →
      (doc.elemAt i).selectOptions.findIdx? (fun o =>
        o.value = s || jsIncludes (jsToLower o.text) (jsToLower s)) = none →
      (∀ idx, parseIntModel s = some idx →
        ¬(0 ≤ idx ∧ idx < Int.ofNat (doc.elemAt i).selectOptions.length)) →
      fillSelect field s doc = (false, doc)) ∧
    (∀ (field : FormField) (s : String) (doc : Doc),
      jsonParseModel s = .nonArr → fillCheckboxGroup field s doc = (false, doc)) ∧
    (∀ (field : FormField) (s : String) (doc : Doc),
      jsonParseModel s = .failed →
      (((splitOnChar s ',').map (fun v => jsTrim v)).map jsToLower).headD "" ≠ "" →
      (∀ opt ∈ field.options.getD [],
        ¬((((splitOnChar s ',').map (fun v => jsTrim v)).map jsToLower).contains
            (jsToLower opt.value) = true ∨
          (((splitOnChar s ',').map (fun v => jsTrim v)).map jsToLower).contains
            (jsToLower opt.label) = true)) →
      (fillCheckboxGroup field s doc).1 = false) := by
  refine ⟨?_, ?_, ?_, ?_, ?_, fillRadioGroup_noMatch, fillSelect_noMatch,
    fillCheckboxGroup_nonArr, fillCheckboxGroup_noMatch⟩
  · intro field v doc hty hlook
    rcases hty with h | h | h | h | h | h
    · simp only [fillFormField]
      rw [if_pos (by simpa [List.contains, textLikeTypes] using h)]
      simp [fillTextLike, hlook]
    · simp [fillFormField, textLikeTypes, h, fillTextLike, hlook]
    · simp [fillFormField, textLikeTypes, h, fillCheckbox, hlook]
    · simp [fillFormField, textLikeTypes, h, fillSelect, hlook]
    · simp [fillFormField, textLikeTypes, h, fillSelect, hlook]
    · simp [fillFormField, textLikeTypes, h, hlook]
  · intro field v doc h
    simp [fillFormField, textLikeTypes, h, fillRadio]
  · intro field v doc i h hlook
    simp [fillFormField, textLikeTypes, h, hlook]
  · intro field v doc h1 h2
    simp only [List.mem_cons, List.not_mem_nil, or_false, not_or] at h2
    obtain ⟨n1, n2, n3, n4, n5, n6, n7, n8⟩ := h2
    have hc : textLikeTypes.contains field.type = false := by
      cases hq : textLikeTypes.contains field.type with
      | false => rfl
      | true =>
        exact absurd (by simpa [List.contains, textLikeTypes] using hq) h1
    simp [fillFormField, hc, n1, n2, n3, n4, n5, n6, n7, n8]
    exact fun hmem => absurd hmem h1
  · intro field v doc h
    simp [fillFormField, textLikeTypes, h]

theorem fillFormField_failure_semantics_witness :
    (fillFormField { id := "zz", type := "text", selector := "#zz" } (.str "hi") {}).1
      = false ∧
    (fillFormField { id := "ff", type := "file", selector := "#ff" } (.str "x") {}) =
      (false, ({} : Doc)) :=
  ⟨fillFormField_failure_semantics.1 _ _ _ (Or.inl (by decide)) (by rfl),
   (fillFormField_failure_semantics.2.2.2.1) _ _ _ (by decide) (by decide)⟩

/-! ### Claim C8 -/

/-- C8 counterexample: on a select whose first option's text contains x
while only the second option's value equals x, filling x selects the FIRST
option (substring match wins by position), although the claimed strict
fallback order - exact value first across all options - would select the
second; so value matching does not take precedence over substring
matching. -/
theorem selectMatch_order_counterexample :
    (docSelectOr.elemAt 0).selectOptions.findIdx? (fun o =>
      o.value = "x" || jsIncludes (jsToLower o.text) (jsToLower "x")) = some 0 ∧
    claimedSelectMatchIdx (docSelectOr.elemAt 0).selectOptions "x" = some 1 ∧
    ((fillFormField fieldSelectOr (.str "x") docSelectOr).2.elemAt 0).selectOptions.map
      (fun o => o.selected) = [true, false] := by decide

/-- C8 (amended): select/multi-select option matching is a single
left-to-right scan choosing the first option that matches by exact value
OR case-insensitive substring against the option text - an earlier
substring match beats a later exact-value match - and only when no option
matches either way is the answer interpreted as a numeric index within the
option range. -/
theorem fillSelect_match_semantics :
    (∀ (field : FormField) (s : String) (doc : Doc) (i oi : Nat),
      lookupFieldElement doc field = some i →
      (doc.elemAt i).selectOptions.findIdx? (fun o =>
        o.value = s || jsIncludes (jsToLower o.text) (jsToLower s)) = some oi →
      fillSelect field s doc =
        (true, doc.setElem i (selectOptionAt (doc.elemAt i) oi))) ∧
    (∀ (field : FormField) (s : String) (doc : Doc) (i : Nat) (idx : Int),
      lookupFieldElement doc field = some i →
      (doc.elemAt i).selectOptions.findIdx? (fun o =>
        o.value = s || jsIncludes (jsToLower o.text) (jsToLower s)) = none →
      parseIntModel s = some idx → 0 ≤ idx →
      idx < Int.ofNat (doc.elemAt i).selectOptions.length →
      fillSelect field s doc =
        (true, doc.setElem i (setSelectedIndex (doc.elemAt i) idx.toNat))) := by
  constructor
  · intro field s doc i oi hlook hfind
    simp only [fillSelect, hlook, hfind]
  · intro field s doc i idx hlook hfind hparse h0 hlt
    simp only [fillSelect, hlook, hfind, hparse]
    rw [if_pos]
    exact (by simpa using And.intro h0 hlt)

theorem fillSelect_match_semantics_witness :
    fillSelect fieldSelectOr "x" docSelectOr =
      (true, docSelectOr.setElem 0 (selectOptionAt (docSelectOr.elemAt 0) 0)) :=
  fillSelect_match_semantics.1 fieldSelectOr "x" docSelectOr 0 0 (by rfl) (by decide)

/-! ### Document mutation lemmas -/

theorem elemAt_ge (doc : Doc) {k : Nat} (h : doc.elems.length ≤ k) :
    doc.elemAt k = {} := by
  simp [Doc.elemAt, List.getD_eq_getElem?_getD, List.getElem?_eq_none h]

theorem length_setChecked (doc : Doc) (j : Nat) (b : Bool) :
    (doc.setChecked j b).elems.length = doc.elems.length := by
  simp [Doc.setChecked]

theorem elemAt_setChecked_ne (doc : Doc) {j k : Nat} (b : Bool) (h : k ≠ j) :
    (doc.setChecked j b).elemAt k = doc.elemAt k := by
  simp [Doc.setChecked, Doc.elemAt, List.getD_eq_getElem?_getD,
    List.getElem?_set_ne (Ne.symm h)]

theorem elemAt_setChecked_self (doc : Doc) {j : Nat} (b : Bool)
    (h : j < doc.elems.length) :
    (doc.setChecked j b).elemAt j = { doc.elemAt j with checked := b } := by
  simp [Doc.setChecked, Doc.elemAt, List.getD_eq_getElem?_getD,
    List.getElem?_set_self h]

theorem elemAt_setChecked_ge (doc : Doc) {j : Nat} (b : Bool)
    (h : doc.elems.length ≤ j) :
    (doc.setChecked j b).elemAt j = {} := by
  apply elemAt_ge
  rw [length_setChecked]; exact h

theorem elemAt_enumMap (doc : Doc) (f : Nat × Elem → Elem) {k : Nat}
    (hk : k < doc.elems.length) :
    (({ doc with elems := doc.elems.enum.map f } : Doc).elemAt k) = f (k, doc.elemAt k) := by
  have h1 : (doc.elems.enum.map f)[k]? = some (f (k, doc.elems[k])) := by
    rw [List.getElem?_map, List.getElem?_enum, List.getElem?_eq_getElem hk]
    rfl
  have h2 : doc.elemAt k = doc.elems[k] := by
    simp [Doc.elemAt, List.getD_eq_getElem?_getD, List.getElem?_eq_getElem hk]
  calc (({ doc with elems := doc.elems.enum.map f } : Doc)).elemAt k
      = ((doc.elems.enum.map f)[k]?).getD {} := by
        simp [Doc.elemAt, List.getD_eq_getElem?_getD]
    _ = f (k, doc.elems[k]) := by rw [h1]; rfl
    _ = f (k, doc.elemAt k) := by rw [← h2]

theorem length_checkRadio (doc : Doc) (i : Nat) :
    (doc.checkRadio i).elems.length = doc.elems.length := by
  unfold Doc.checkRadio
  by_cases h : (doc.elemAt i).name = "" <;> simp [h, Doc.setChecked]

theorem elemAt_checkRadio_self (doc : Doc) {i : Nat} (h : i < doc.elems.length) :
    (doc.checkRadio i).elemAt i = { doc.elemAt i with checked := true } := by
  simp only [Doc.checkRadio]
  by_cases hn : (doc.elemAt i).name = ""
  · rw [if_neg (fun hc => hc hn)]
    exact elemAt_setChecked_self doc true h
  · rw [if_pos hn]
    have hlen : i < (({ doc with elems := doc.elems.enum.map (fun p =>
        if p.1 ≠ i && p.2.tag = "input" && p.2.type = "radio" &&
          p.2.name = (doc.elemAt i).name then
          { p.2 with checked := false }
        else p.2) } : Doc)).elems.length := by
      simpa using h
    rw [elemAt_setChecked_self _ true hlen, elemAt_enumMap doc _ h]
    simp

theorem elemAt_checkRadio_other (doc : Doc) {i k : Nat} (hne : k ≠ i)
    (hshape : ¬((doc.elemAt k).tag = "input" ∧ (doc.elemAt k).type = "radio" ∧
      (doc.elemAt k).name = (doc.elemAt i).name) ∨ (doc.elemAt i).name = "") :
    (doc.checkRadio i).elemAt k = doc.elemAt k := by
  simp only [Doc.checkRadio]
  by_cases hn : (doc.elemAt i).name = ""
  · rw [if_neg (fun hc => hc hn)]
    exact elemAt_setChecked_ne doc true hne
  · rw [if_pos hn]
    rcases hshape with hs | hs
    · by_cases hk : k < doc.elems.length
      · rw [elemAt_setChecked_ne _ true hne, elemAt_enumMap doc _ hk]
        have hcond : (k ≠ i && (doc.elemAt k).tag = "input" &&
            (doc.elemAt k).type = "radio" &&
            (doc.elemAt k).name = (doc.elemAt i).name) = false := by
          by_cases h1 : (doc.elemAt k).tag = "input"
          · by_cases h2 : (doc.elemAt k).type = "radio"
            · have h3 : ¬ (doc.elemAt k).name = (doc.elemAt i).name :=
                fun hc => hs ⟨h1, h2, hc⟩
              simp [h3]
            · simp [h2]
          · simp [h1]
        simp [hcond]
        intro hki h1 h2 h3
        exact absurd ⟨h1, h2, h3⟩ hs
      · push_neg at hk
        rw [elemAt_setChecked_ne _ true hne, elemAt_ge doc hk]
        apply elemAt_ge
        simpa using hk
    · exact absurd hs hn

theorem elemAt_checkRadio_sibling (doc : Doc) {i k : Nat} (hne : k ≠ i)
    (hk : k < doc.elems.length)
    (hshape : (doc.elemAt k).tag = "input" ∧ (doc.elemAt k).type = "radio" ∧
      (doc.elemAt k).name = (doc.elemAt i).name)
    (hnm : (doc.elemAt i).name ≠ "") :
    (doc.checkRadio i).elemAt k = { doc.elemAt k with checked := false } := by
  simp only [Doc.checkRadio]
  rw [if_pos hnm]
  rw [elemAt_setChecked_ne _ true hne, elemAt_enumMap doc _ hk]
  have hcond : (k ≠ i && (doc.elemAt k).tag = "input" &&
      (doc.elemAt k).type = "radio" &&
      (doc.elemAt k).name = (doc.elemAt i).name) = true := by
    simp [hne, hshape.1, hshape.2.1, hshape.2.2]
  simp [hcond]
  intro hc
  exact absurd hshape.2.2 (hc hne hshape.1 hshape.2.1)

/-! ### Fold lemmas for group fills -/

theorem rgOptStep_noop (v : String) (acc : Doc × Bool) (opt : FFOption)
    (h : ¬ rgOptMatches v opt) : rgOptStep v acc opt = acc := by
  unfold rgOptStep
  unfold rgOptMatches at h
  push_neg at h
  cases he : opt.elemRef with
  | none => rfl
  | some j => simp [h.1, h.2]

theorem rgOptStep_write (v : String) (acc : Doc × Bool) (opt : FFOption) (j : Nat)
    (href : opt.elemRef = some j) (h : rgOptMatches v opt) :
    rgOptStep v acc opt = (acc.1.checkRadio j, true) := by
  unfold rgOptStep
  rw [href]
  have hcond : (jsToLower opt.value = v || jsToLower opt.label = v) = true := by
    rcases h with h | h <;> simp [h]
  simp [hcond]

theorem rgFold_snd_true (v : String) :
    ∀ (l : List FFOption) (st : Doc × Bool), st.2 = true →
      (l.foldl (rgOptStep v) st).2 = true := by
  intro l
  induction l with
  | nil => intro st h; exact h
  | cons a t ih =>
    intro st h
    rw [List.foldl_cons]
    apply ih
    unfold rgOptStep
    cases a.elemRef with
    | none => exact h
    | some j =>
      by_cases hc : (jsToLower a.value = v || jsToLower a.label = v) = true
      · simp [hc]
      · simp only [Bool.not_eq_true] at hc
        simp [hc]; exact h

theorem rgFold_keep (v : String) (j : Nat) :
    ∀ (l : List FFOption) (d : Doc) (b : Bool),
      j < d.elems.length →
      (∀ opt ∈ l, rgOptMatches v opt → opt.elemRef = some j) →
      (d.elemAt j).checked = true →
      ((l.foldl (rgOptStep v) (d, b)).1.elemAt j).checked = true := by
  intro l
  induction l with
  | nil => intro d b _ _ hc; exact hc
  | cons a t ih =>
    intro d b hj hall hc
    rw [List.foldl_cons]
    by_cases hm : rgOptMatches v a
    · rw [rgOptStep_write v _ a j (hall a (List.mem_cons_self a t) hm) hm]
      apply ih
      · rw [length_checkRadio]; exact hj
      · exact fun o ho hmo => hall o (List.mem_cons_of_mem a ho) hmo
      · rw [elemAt_checkRadio_self d hj]
    · rw [rgOptStep_noop v _ a hm]
      exact ih d b hj (fun o ho hmo => hall o (List.mem_cons_of_mem a ho) hmo) hc

theorem rgFold_start (v : String) (j : Nat) :
    ∀ (l : List FFOption) (d : Doc) (b : Bool),
      j < d.elems.length →
      (∀ opt ∈ l, rgOptMatches v opt → opt.elemRef = some j) →
      (∃ opt ∈ l, rgOptMatches v opt) →
      ((l.foldl (rgOptStep v) (d, b)).1.elemAt j).checked = true ∧
      (l.foldl (rgOptStep v) (d, b)).2 = true := by
  intro l
  induction l with
  | nil => intro d b _ _ hex; simp at hex
  | cons a t ih =>
    intro d b hj hall hex
    rw [List.foldl_cons]
    by_cases hm : rgOptMatches v a
    · rw [rgOptStep_write v _ a j (hall a (List.mem_cons_self a t) hm) hm]
      constructor
      · apply rgFold_keep
        · rw [length_checkRadio]; exact hj
        · exact fun o ho hmo => hall o (List.mem_cons_of_mem a ho) hmo
        · rw [elemAt_checkRadio_self d hj]
      · exact rgFold_snd_true v t _ rfl
    · rw [rgOptStep_noop v _ a hm]
      apply ih d b hj (fun o ho hmo => hall o (List.mem_cons_of_mem a ho) hmo)
      rcases hex with ⟨o, ho, hmo⟩
      rcases List.mem_cons.mp ho with rfl | ho2
      · exact absurd hmo hm
      · exact ⟨o, ho2, hmo⟩

theorem rgFold_untouched (v : String) (j k : Nat) (hkj : k ≠ j) :
    ∀ (l : List FFOption) (d : Doc) (b : Bool),
      j < d.elems.length →
      (∀ opt ∈ l, rgOptMatches v opt → opt.elemRef = some j) →
      ¬((d.elemAt k).tag = "input" ∧ (d.elemAt k).type = "radio" ∧
        (d.elemAt k).name = (d.elemAt j).name) →
      (l.foldl (rgOptStep v) (d, b)).1.elemAt k = d.elemAt k := by
  intro l
  induction l with
  | nil => intro d b _ _ _; rfl
  | cons a t ih =>
    intro d b hj hall hshape
    rw [List.foldl_cons]
    by_cases hm : rgOptMatches v a
    · rw [rgOptStep_write v _ a j (hall a (List.mem_cons_self a t) hm) hm]
      have hunto : (d.checkRadio j).elemAt k = d.elemAt k :=
        elemAt_checkRadio_other d hkj (Or.inl hshape)
      have hjname : ((d.checkRadio j).elemAt j).name = (d.elemAt j).name := by
        rw [elemAt_checkRadio_self d hj]
      have := ih (d.checkRadio j) true (by rw [length_checkRadio]; exact hj)
        (fun o ho hmo => hall o (List.mem_cons_of_mem a ho) hmo)
        (by rw [hunto, hjname]; exact hshape)
      rw [this, hunto]
    · rw [rgOptStep_noop v _ a hm]
      exact ih d b hj (fun o ho hmo => hall o (List.mem_cons_of_mem a ho) hmo) hshape

theorem rgFold_sibling_keep (v : String) (j k : Nat) (hkj : k ≠ j) :
    ∀ (l : List FFOption) (d : Doc) (b : Bool),
      j < d.elems.length → k < d.elems.length →
      (∀ opt ∈ l, rgOptMatches v opt → opt.elemRef = some j) →
      ((d.elemAt k).tag = "input" ∧ (d.elemAt k).type = "radio" ∧
        (d.elemAt k).name = (d.elemAt j).name) →
      (d.elemAt j).name ≠ "" →
      ((d.elemAt k).checked = false) →
      ((l.foldl (rgOptStep v) (d, b)).1.elemAt k).checked = false := by
  intro l
  induction l with
  | nil => intro d b _ _ _ _ _ hc; exact hc
  | cons a t ih =>
    intro d b hj hk hall hshape hnm hc
    rw [List.foldl_cons]
    by_cases hm : rgOptMatches v a
    · rw [rgOptStep_write v _ a j (hall a (List.mem_cons_self a t) hm) hm]
      have hsib : (d.checkRadio j).elemAt k = { d.elemAt k with checked := false } :=
        elemAt_checkRadio_sibling d hkj hk hshape hnm
      have hjself : (d.checkRadio j).elemAt j = { d.elemAt j with checked := true } :=
        elemAt_checkRadio_self d hj
      apply ih (d.checkRadio j) true
      · rw [length_checkRadio]; exact hj
      · rw [length_checkRadio]; exact hk
      · exact fun o ho hmo => hall o (List.mem_cons_of_mem a ho) hmo
      · rw [hsib, hjself]; exact hshape
      · rw [hjself]; exact hnm
      · rw [hsib]
    · rw [rgOptStep_noop v _ a hm]
      exact ih d b hj hk (fun o ho hmo => hall o (List.mem_cons_of_mem a ho) hmo)
        hshape hnm hc

theorem rgFold_sibling (v : String) (j k : Nat) (hkj : k ≠ j) :
    ∀ (l : List FFOption) (d : Doc) (b : Bool),
      j < d.elems.length → k < d.elems.length →
      (∀ opt ∈ l, rgOptMatches v opt → opt.elemRef = some j) →
      ((d.elemAt k).tag = "input" ∧ (d.elemAt k).type = "radio" ∧
        (d.elemAt k).name = (d.elemAt j).name) →
      (d.elemAt j).name ≠ "" →
      (∃ opt ∈ l, rgOptMatches v opt) →
      ((l.foldl (rgOptStep v) (d, b)).1.elemAt k).checked = false := by
  intro l
  induction l with
  | nil => intro d b _ _ _ _ _ hex; simp at hex
  | cons a t ih =>
    intro d b hj hk hall hshape hnm hex
    rw [List.foldl_cons]
    by_cases hm : rgOptMatches v a
    · rw [rgOptStep_write v _ a j (hall a (List.mem_cons_self a t) hm) hm]
      have hsib : (d.checkRadio j).elemAt k = { d.elemAt k with checked := false } :=
        elemAt_checkRadio_sibling d hkj hk hshape hnm
      have hjself : (d.checkRadio j).elemAt j = { d.elemAt j with checked := true } :=
        elemAt_checkRadio_self d hj
      apply rgFold_sibling_keep v j k hkj t (d.checkRadio j) true
      · rw [length_checkRadio]; exact hj
      · rw [length_checkRadio]; exact hk
      · exact fun o ho hmo => hall o (List.mem_cons_of_mem a ho) hmo
      · rw [hsib, hjself]; exact hshape
      · rw [hjself]; exact hnm
      · rw [hsib]
    · rw [rgOptStep_noop v _ a hm]
      apply ih d b hj hk (fun o ho hmo => hall o (List.mem_cons_of_mem a ho) hmo)
        hshape hnm
      rcases hex with ⟨o, ho, hmo⟩
      rcases List.mem_cons.mp ho with rfl | ho2
      · exact absurd hmo hm
      · exact ⟨o, ho2, hmo⟩

theorem cbGroupStep_fst_length (vs : List String) (st : Doc × Nat) (opt : FFOption) :
    (cbGroupStep vs st opt).1.elems.length = st.1.elems.length := by
  unfold cbGroupStep
  cases opt.elemRef with
  | none => rfl
  | some j => simp [Doc.setChecked]

theorem cbFold_preserve (vs : List String) (j : Nat) :
    ∀ (l : List FFOption) (st : Doc × Nat),
      (∀ opt ∈ l, opt.elemRef ≠ some j) →
      ((l.foldl (cbGroupStep vs) st).1).elemAt j = st.1.elemAt j := by
  intro l
  induction l with
  | nil => intro st _; rfl
  | cons a t ih =>
    intro st hall
    rw [List.foldl_cons]
    rw [ih (cbGroupStep vs st a) (fun o ho => hall o (List.mem_cons_of_mem a ho))]
    unfold cbGroupStep
    cases he : a.elemRef with
    | none => rfl
    | some m =>
      have hm : m ≠ j := by
        intro hc; subst hc
        exact hall a (List.mem_cons_self a t) he
      simp only []
      rw [elemAt_setChecked_ne _ _ (Ne.symm hm)]

theorem cbFold_assign (vs : List String) (j : Nat) (bv : Bool) :
    ∀ (l : List FFOption) (st : Doc × Nat),
      j < st.1.elems.length →
      (∀ opt ∈ l, opt.elemRef = some j → cbMatches vs opt = bv) →
      (∃ opt ∈ l, opt.elemRef = some j) →
      ((l.foldl (cbGroupStep vs) st).1.elemAt j).checked = bv := by
  intro l
  induction l with
  | nil => intro st _ _ hex; simp at hex
  | cons a t ih =>
    intro st hj hall hex
    rw [List.foldl_cons]
    by_cases he : a.elemRef = some j
    · have hmv : cbMatches vs a = bv := hall a (List.mem_cons_self a t) he
      have hstep : (cbGroupStep vs st a).1 = st.1.setChecked j (cbMatches vs a) := by
        unfold cbGroupStep
        rw [he]
        rfl
      by_cases hext : ∃ opt ∈ t, opt.elemRef = some j
      · apply ih
        · rw [cbGroupStep_fst_length]; exact hj
        · exact fun o ho hoe => hall o (List.mem_cons_of_mem a ho) hoe
        · exact hext
      · push_neg at hext
        rw [cbFold_preserve vs j t (cbGroupStep vs st a) hext, hstep,
          elemAt_setChecked_self _ _ hj, hmv]
    · apply ih
      · rw [cbGroupStep_fst_length]; exact hj
      · exact fun o ho hoe => hall o (List.mem_cons_of_mem a ho) hoe
      · rcases hex with ⟨o, ho, hoe⟩
        rcases List.mem_cons.mp ho with rfl | ho2
        · exact absurd hoe he
        · exact ⟨o, ho2, hoe⟩

/-! ### Claim C7 -/

set_option maxRecDepth 4000 in
/-- C7 counterexample: filling a checkbox-group with the selection b leaves
the fill successful but actively clears the non-matching member a, whose
checked state was true before the fill - its state is not left unchanged. -/
theorem checkboxGroup_clears_counterexample :
    (docCheckboxPair.elemAt 0).checked = true ∧
    (fillFormField fieldCbGroup (.str "b") docCheckboxPair).1 = true ∧
    ((fillFormField fieldCbGroup (.str "b") docCheckboxPair).2.elemAt 0).checked = false ∧
    ((fillFormField fieldCbGroup (.str "b") docCheckboxPair).2.elemAt 1).checked = true := by
  decide

/-- C7 (amended): for a radio-group whose answer uniquely matches one
member option (all matching options reference the same member), the fill
succeeds, the matched member ends checked, members that are not same-name
sibling radios of the matched control are left completely unchanged, and
same-name sibling radios end unchecked through the host's native radio
exclusivity (so a previously selected sibling is cleared, not left
unchanged).  For a checkbox-group on the comma-separated path, every
referenced member's checked state is ASSIGNED its match status - in
particular a referenced member none of whose options match is actively
cleared rather than left unchanged. -/
theorem fillGroup_toggle_semantics :
    (∀ (field : FormField) (s : String) (doc : Doc) (j : Nat) (opt : FFOption),
      j < doc.elems.length →
      opt ∈ field.options.getD [] →
      opt.elemRef = some j →
      rgOptMatches (jsToLower s) opt →
      (∀ opt2 ∈ field.options.getD [], rgOptMatches (jsToLower s) opt2 →
        opt2.elemRef = some j) →
      (fillRadioGroup field s doc).1 = true ∧
      ((fillRadioGroup field s doc).2.elemAt j).checked = true ∧
      (∀ k, k ≠ j →
        ¬((doc.elemAt k).tag = "input" ∧ (doc.elemAt k).type = "radio" ∧
          (doc.elemAt k).name = (doc.elemAt j).name) →
        (fillRadioGroup field s doc).2.elemAt k = doc.elemAt k) ∧
      (∀ k, k ≠ j → k < doc.elems.length →
        ((doc.elemAt k).tag = "input" ∧ (doc.elemAt k).type = "radio" ∧
          (doc.elemAt k).name = (doc.elemAt j).name) →
        (doc.elemAt j).name ≠ "" →
        ((fillRadioGroup field s doc).2.elemAt k).checked = false)) ∧
    (∀ (field : FormField) (s : String) (doc : Doc) (j : Nat) (bv : Bool),
      jsonParseModel s = .failed →
      j < doc.elems.length →
      (∃ opt ∈ field.options.getD [], opt.elemRef = some j) →
      (∀ opt ∈ field.options.getD [], opt.elemRef = some j →
        cbMatches (((splitOnChar s ',').map (fun v => jsTrim v)).map jsToLower) opt = bv) →
      ((fillCheckboxGroup field s doc).2.elemAt j).checked = bv) := by
  constructor
  · intro field s doc j opt hj hmem href hmat hall
    have hex : ∃ o ∈ field.options.getD [], rgOptMatches (jsToLower s) o := ⟨opt, hmem, hmat⟩
    have hstart := rgFold_start (jsToLower s) j (field.options.getD []) doc false hj hall hex
    refine ⟨?_, ?_, ?_, ?_⟩
    · simp [fillRadioGroup, hstart.2]
    · simp only [fillRadioGroup]
      simp [hstart.2, hstart.1]
    · intro k hkj hshape
      simp only [fillRadioGroup]
      simp [hstart.2]
      exact rgFold_untouched (jsToLower s) j k hkj (field.options.getD []) doc false
        hj hall hshape
    · intro k hkj hk hshape hnm
      simp only [fillRadioGroup]
      simp [hstart.2]
      exact rgFold_sibling (jsToLower s) j k hkj (field.options.getD []) doc false
        hj hk hall hshape hnm hex
  · intro field s doc j bv hjson hj hex hall
    simp only [fillCheckboxGroup, hjson]
    split
    · exact cbFold_assign _ j bv (field.options.getD []) (doc, 0) hj hall hex
    · exact cbFold_assign _ j bv (field.options.getD []) (doc, 0) hj hall hex

set_option maxRecDepth 4000 in
theorem fillGroup_toggle_semantics_witness :
    ((fillRadioGroup fieldRadioGroupW "Yes" docRadioPair).1 = true ∧
     ((fillRadioGroup fieldRadioGroupW "Yes" docRadioPair).2.elemAt 0).checked = true ∧
     ((fillRadioGroup fieldRadioGroupW "Yes" docRadioPair).2.elemAt 1).checked = false) ∧
    ((fillCheckboxGroup fieldCbGroup "b" docCheckboxPair).2.elemAt 0).checked = false :=
  have h := fillGroup_toggle_semantics.1 fieldRadioGroupW "Yes" docRadioPair 0 optYes
    (by decide) (by decide) (by decide) (by decide) (by decide)
  ⟨⟨h.1, h.2.1, h.2.2.2 1 (by decide) (by decide) (by decide) (by decide)⟩,
   fillGroup_toggle_semantics.2 fieldCbGroup "b" docCheckboxPair 0 false
     (by decide) (by decide) (by decide) (by decide)⟩

/-! ### Claim C6 -/

theorem pollLoop_le (maxWaitTime : Nat) (check : Nat → Bool) :
    ∀ (fuel k : Nat), maxWaitTime ≤ 500 * (k + fuel) →
      pollLoop maxWaitTime check fuel k ≤ max (500 * k) (maxWaitTime + 500) := by
  intro fuel
  induction fuel with
  | zero =>
    intro k h
    simp only [pollLoop]
    exact le_max_left _ _
  | succ fuel ih =>
    intro k h
    simp only [pollLoop]
    by_cases h1 : 500 * k ≥ maxWaitTime
    · rw [if_pos h1]; exact le_max_left _ _
    · rw [if_neg h1]
      by_cases h2 : check (500 * k) = true
      · rw [if_pos h2]; exact le_max_left _ _
      · rw [if_neg h2]
        have hrec := ih (k + 1) (by omega)
        have hk1 : 500 * (k + 1) ≤ maxWaitTime + 500 := by omega
        calc pollLoop maxWaitTime check fuel (k + 1)
            ≤ max (500 * (k + 1)) (maxWaitTime + 500) := hrec
          _ ≤ maxWaitTime + 500 := by omega
          _ ≤ max (500 * k) (maxWaitTime + 500) := le_max_right _ _

/-- C6: the settle waiter always resolves, and within its maxWaitTime
bound plus at most one poll interval (500 ms), for every environment -
in particular when no activity indicator ever appears and no tracked
field value ever changes (a completion check that never fires): the
timeout tick is always reached. -/
theorem waitForAutofillComplete_bounded (maxWaitTime : Nat) (check : Nat → Bool) :
    waitForAutofillComplete maxWaitTime check ≤ maxWaitTime + 500 := by
  unfold waitForAutofillComplete
  by_cases h : check 0 = true
  · rw [if_pos h]; omega
  · rw [if_neg h]
    have hb := pollLoop_le maxWaitTime check (maxWaitTime / 500 + 1) 1 (by omega)
    have h500 : (500 : Nat) ≤ maxWaitTime + 500 := by omega
    calc pollLoop maxWaitTime check (maxWaitTime / 500 + 1) 1
        ≤ max (500 * 1) (maxWaitTime + 500) := hb
      _ = maxWaitTime + 500 := by omega

/-! ### Claim C9 -/

/-- C9: a disabled FormField is never classified as empty by
isFieldEmpty, and consequently the filterEmpty discovery mode never
returns a disabled descriptor. -/
theorem disabled_never_empty :
    (∀ field : FormField, field.disabled = true → isFieldEmpty field = false) ∧
    (∀ (doc : Doc) (c : Nat) (f : FormField),
      f ∈ (detectFormFields doc c true).fields → f.disabled = false) := by
  have h1 : ∀ field : FormField, field.disabled = true → isFieldEmpty field = false := by
    intro field hd
    unfold isFieldEmpty
    rw [hd]
    simp
  refine ⟨h1, ?_⟩
  intro doc c f h
  simp only [detectFormFields] at h
  have hp := (List.mem_filter.mp h).2
  have hie : isFieldEmpty f = true := by
    rw [Bool.and_eq_true] at hp
    exact hp.1
  cases hdq : f.disabled with
  | false => rfl
  | true =>
    rw [h1 f hdq] at hie
    exact absurd hie (by simp)

set_option maxRecDepth 4000 in
theorem disabled_never_empty_witness :
    isFieldEmpty { id := "d1", type := "text", disabled := true } = false ∧
    ((detectFormFields docText 0 true).fields.headD default).disabled = false :=
  ⟨disabled_never_empty.1 { id := "d1", type := "text", disabled := true } rfl,
   disabled_never_empty.2 docText 0 _ (List.Mem.head _)⟩

/-! ### Counter and group-identifier lemmas for discovery -/

theorem groupRadioButtons_spec (doc : Doc) (c : Nat) :
    c ≤ (groupRadioButtons doc c).2 ∧
    ∀ f ∈ (groupRadioButtons doc c).1, f.isGroup = true ∧
      ∃ k, c < k ∧ k ≤ (groupRadioButtons doc c).2 ∧ f.id = fieldIdString k := by
  have h := @foldlInv (String × List Nat) (List FormField × Nat)
    (fun acc => c ≤ acc.2 ∧ ∀ f ∈ acc.1, f.isGroup = true ∧
      ∃ k, c < k ∧ k ≤ acc.2 ∧ f.id = fieldIdString k)
    (fun acc g =>
      if g.2.length = 0 then acc
      else
        let fc := mkRadioGroupField doc g.1 g.2 acc.2
        (acc.1 ++ [fc.1], fc.2))
    ?_ (radioGroupsOf doc) ([], c) ⟨le_refl c, by simp⟩
  · exact h
  · intro s g hs
    by_cases hlen : g.2.length = 0
    · simpa [hlen] using hs
    · have hred : (fun (acc : List FormField × Nat) (g : String × List Nat) =>
          if g.2.length = 0 then acc
          else
            let fc := mkRadioGroupField doc g.1 g.2 acc.2
            (acc.1 ++ [fc.1], fc.2)) s g
          = (s.1 ++ [(mkRadioGroupField doc g.1 g.2 s.2).1],
             (mkRadioGroupField doc g.1 g.2 s.2).2) := by
        show (if g.2.length = 0 then s else
          (s.1 ++ [(mkRadioGroupField doc g.1 g.2 s.2).1],
           (mkRadioGroupField doc g.1 g.2 s.2).2)) = _
        rw [if_neg hlen]
      rw [hred]
      show c ≤ (mkRadioGroupField doc g.1 g.2 s.2).2 ∧
        ∀ f ∈ s.1 ++ [(mkRadioGroupField doc g.1 g.2 s.2).1], f.isGroup = true ∧
          ∃ k, c < k ∧ k ≤ (mkRadioGroupField doc g.1 g.2 s.2).2 ∧ f.id = fieldIdString k
      have hc2 : (mkRadioGroupField doc g.1 g.2 s.2).2 = s.2 + 1 := rfl
      have hsc := hs.1
      refine ⟨by rw [hc2]; omega, ?_⟩
      intro f hf
      rcases List.mem_append.mp hf with hf1 | hf2
      · rcases hs.2 f hf1 with ⟨hg, k, hk1, hk2, hk3⟩
        exact ⟨hg, k, hk1, by rw [hc2]; omega, hk3⟩
      · have hfe : f = (mkRadioGroupField doc g.1 g.2 s.2).1 := by simpa using hf2
        subst hfe
        refine ⟨rfl, s.2 + 1, by omega, by rw [hc2], rfl⟩

theorem groupCheckboxes_spec (doc : Doc) (c : Nat) :
    c ≤ (groupCheckboxes doc c).2 ∧
    ∀ f ∈ (groupCheckboxes doc c).1, f.isGroup = true ∧
      ∃ k, c < k ∧ k ≤ (groupCheckboxes doc c).2 ∧ f.id = fieldIdString k := by
  have h := @foldlInv CbGroup (List FormField × Nat)
    (fun acc => c ≤ acc.2 ∧ ∀ f ∈ acc.1, f.isGroup = true ∧
      ∃ k, c < k ∧ k ≤ acc.2 ∧ f.id = fieldIdString k)
    (fun acc g =>
      if g.members.length < 2 then acc
      else
        let fc := mkCheckboxGroupField doc g acc.2
        (acc.1 ++ [fc.1], fc.2))
    ?_ (checkboxGroupsOf doc) ([], c) ⟨le_refl c, by simp⟩
  · exact h
  · intro s g hs
    by_cases hlen : g.members.length < 2
    · simpa [hlen] using hs
    · have hred : (fun (acc : List FormField × Nat) (g : CbGroup) =>
          if g.members.length < 2 then acc
          else
            let fc := mkCheckboxGroupField doc g acc.2
            (acc.1 ++ [fc.1], fc.2)) s g
          = (s.1 ++ [(mkCheckboxGroupField doc g s.2).1],
             (mkCheckboxGroupField doc g s.2).2) := by
        show (if g.members.length < 2 then s else
          (s.1 ++ [(mkCheckboxGroupField doc g s.2).1],
           (mkCheckboxGroupField doc g s.2).2)) = _
        rw [if_neg hlen]
      rw [hred]
      show c ≤ (mkCheckboxGroupField doc g s.2).2 ∧
        ∀ f ∈ s.1 ++ [(mkCheckboxGroupField doc g s.2).1], f.isGroup = true ∧
          ∃ k, c < k ∧ k ≤ (mkCheckboxGroupField doc g s.2).2 ∧ f.id = fieldIdString k
      have hc2 : (mkCheckboxGroupField doc g s.2).2 = s.2 + 1 := rfl
      have hsc := hs.1
      refine ⟨by rw [hc2]; omega, ?_⟩
      intro f hf
      rcases List.mem_append.mp hf with hf1 | hf2
      · rcases hs.2 f hf1 with ⟨hg, k, hk1, hk2, hk3⟩
        exact ⟨hg, k, hk1, by rw [hc2]; omega, hk3⟩
      · have hfe : f = (mkCheckboxGroupField doc g s.2).1 := by simpa using hf2
        subst hfe
        refine ⟨rfl, s.2 + 1, by omega, by rw [hc2], rfl⟩

theorem genPair_counter (idv : String) (c : Nat) :
    c ≤ (if idv ≠ "" then (idv, c) else generateFieldId c).2 := by
  split
  · exact le_refl _
  · show c ≤ c + 1
    omega

theorem processFocusableElem_counter (st : PassSt) (i : Nat) :
    st.counter ≤ (processFocusableElem st i).counter := by
  simp only [processFocusableElem]
  repeat' first
  | exact le_refl _
  | exact Nat.le_succ _
  | exact genPair_counter _ _
  | split

theorem processStandardElem_counter (st : PassSt) (i : Nat) :
    st.counter ≤ (processStandardElem st i).counter := by
  simp only [processStandardElem]
  repeat' first
  | exact le_refl _
  | exact Nat.le_succ _
  | exact genPair_counter _ _
  | split

theorem processDropdownElem_counter (st : PassSt) (i : Nat) :
    st.counter ≤ (processDropdownElem st i).counter := by
  simp only [processDropdownElem]
  repeat' first
  | exact le_refl _
  | exact Nat.le_succ _
  | exact genPair_counter _ _
  | split

theorem runSelectorPass_counter (matchers : List (Elem → Bool))
    (process : PassSt → Nat → PassSt) (doc : Doc) (c : Nat)
    (hp : ∀ st i, st.counter ≤ (process st i).counter) :
    c ≤ (runSelectorPass matchers process doc c).counter := by
  unfold runSelectorPass
  refine @foldlInv (Elem → Bool) PassSt (fun st => c ≤ st.counter) _ ?_ matchers _ (le_refl c)
  intro s m hs
  refine @foldlInv Nat PassSt (fun st => c ≤ st.counter) process ?_ _ s hs
  intro s2 i hs2
  exact le_trans hs2 (hp s2 i)

theorem legacyInputStep_counter (radioIds cbIds : List String) (st : LegacySt) (i : Nat) :
    st.counter ≤ (legacyInputStep radioIds cbIds st i).counter := by
  simp only [legacyInputStep]
  repeat' first
  | exact le_refl _
  | exact Nat.le_succ _
  | exact genPair_counter _ _
  | split

theorem legacyTextareaStep_counter (st : LegacySt) (i : Nat) :
    st.counter ≤ (legacyTextareaStep st i).counter := by
  simp only [legacyTextareaStep]
  repeat' first
  | exact le_refl _
  | exact Nat.le_succ _
  | exact genPair_counter _ _
  | split

theorem legacySelectStep_counter (st : LegacySt) (i : Nat) :
    st.counter ≤ (legacySelectStep st i).counter := by
  simp only [legacySelectStep]
  repeat' first
  | exact le_refl _
  | exact Nat.le_succ _
  | exact genPair_counter _ _
  | split

/-! ### Merge-phase provenance lemmas -/

theorem MergeSt.push_mem (st : MergeSt) (f x : FormField)
    (hx : x ∈ (st.push f).allFields) : x ∈ st.allFields ∨ x = f := by
  simp only [MergeSt.push] at hx
  rcases List.mem_append.mp hx with h | h
  · exact Or.inl h
  · exact Or.inr (List.mem_singleton.mp h)

theorem replaceInFields_mem (l : List FormField) (f x : FormField)
    (hx : x ∈ replaceInFields l f) : x ∈ l ∨ x = f := by
  unfold replaceInFields at hx
  split at hx
  · exact List.mem_or_eq_of_mem_set hx
  · exact Or.inl hx

theorem mergeFocusable_mem (radioIds cbIds : List String) (st : MergeSt) (f x : FormField)
    (hx : x ∈ (mergeFocusable radioIds cbIds st f).allFields) : x ∈ st.allFields ∨ x = f := by
  simp only [mergeFocusable] at hx
  repeat' split at hx
  all_goals first
  | exact Or.inl hx
  | exact replaceInFields_mem _ _ _ hx
  | exact MergeSt.push_mem _ _ _ hx

theorem mergeTabOrder_mem (radioIds cbIds : List String) (st : MergeSt) (f x : FormField)
    (hx : x ∈ (mergeTabOrder radioIds cbIds st f).allFields) : x ∈ st.allFields ∨ x = f := by
  simp only [mergeTabOrder] at hx
  repeat' split at hx
  all_goals first
  | exact Or.inl hx
  | exact replaceInFields_mem _ _ _ hx
  | exact MergeSt.push_mem _ _ _ hx

theorem mergeAria_mem (radioIds cbIds : List String) (st : MergeSt) (f x : FormField)
    (hx : x ∈ (mergeAria radioIds cbIds st f).allFields) : x ∈ st.allFields ∨ x = f := by
  simp only [mergeAria] at hx
  repeat' split at hx
  all_goals first
  | exact Or.inl hx
  | exact replaceInFields_mem _ _ _ hx
  | exact MergeSt.push_mem _ _ _ hx

theorem mergeDropdown_mem (st : MergeSt) (f x : FormField)
    (hx : x ∈ (mergeDropdown st f).allFields) : x ∈ st.allFields ∨ x = f := by
  simp only [mergeDropdown] at hx
  repeat' split at hx
  all_goals first
  | exact Or.inl hx
  | exact replaceInFields_mem _ _ _ hx
  | exact MergeSt.push_mem _ _ _ hx

theorem legacyInputStep_mem (radioIds cbIds : List String) (st : LegacySt) (i : Nat)
    (x : FormField) (hx : x ∈ (legacyInputStep radioIds cbIds st i).merge.allFields) :
    x ∈ st.merge.allFields ∨ x.isGroup = false := by
  simp only [legacyInputStep] at hx
  repeat' split at hx
  all_goals first
  | exact Or.inl hx
  | exact (List.mem_append.mp hx).elim Or.inl
      (fun h => Or.inr (by rw [List.mem_singleton.mp h]; try rfl))

theorem legacyTextareaStep_mem (st : LegacySt) (i : Nat)
    (x : FormField) (hx : x ∈ (legacyTextareaStep st i).merge.allFields) :
    x ∈ st.merge.allFields ∨ x.isGroup = false := by
  simp only [legacyTextareaStep] at hx
  repeat' split at hx
  all_goals first
  | exact Or.inl hx
  | exact (List.mem_append.mp hx).elim Or.inl
      (fun h => Or.inr (by rw [List.mem_singleton.mp h]; try rfl))

theorem legacySelectStep_mem (st : LegacySt) (i : Nat)
    (x : FormField) (hx : x ∈ (legacySelectStep st i).merge.allFields) :
    x ∈ st.merge.allFields ∨ x.isGroup = false := by
  simp only [legacySelectStep] at hx
  repeat' split at hx
  all_goals first
  | exact Or.inl hx
  | exact (List.mem_append.mp hx).elim Or.inl
      (fun h => Or.inr (by rw [List.mem_singleton.mp h]; try rfl))

theorem processFocusableElem_fields (st : PassSt) (i : Nat) (x : FormField)
    (hx : x ∈ (processFocusableElem st i).fields) : x ∈ st.fields ∨ x.isGroup = false := by
  simp only [processFocusableElem] at hx
  repeat' split at hx
  all_goals first
  | exact Or.inl hx
  | exact (List.mem_append.mp hx).elim Or.inl
      (fun h => Or.inr (by rw [List.mem_singleton.mp h]; try rfl))

theorem processStandardElem_fields (st : PassSt) (i : Nat) (x : FormField)
    (hx : x ∈ (processStandardElem st i).fields) : x ∈ st.fields ∨ x.isGroup = false := by
  simp only [processStandardElem] at hx
  repeat' split at hx
  all_goals first
  | exact Or.inl hx
  | exact (List.mem_append.mp hx).elim Or.inl
      (fun h => Or.inr (by rw [List.mem_singleton.mp h]; try rfl))

theorem processDropdownElem_fields (st : PassSt) (i : Nat) (x : FormField)
    (hx : x ∈ (processDropdownElem st i).fields) : x ∈ st.fields ∨ x.isGroup = false := by
  simp only [processDropdownElem] at hx
  repeat' split at hx
  all_goals first
  | exact Or.inl hx
  | exact (List.mem_append.mp hx).elim Or.inl
      (fun h => Or.inr (by rw [List.mem_singleton.mp h]; try rfl))

theorem runSelectorPass_isGroup (matchers : List (Elem → Bool))
    (process : PassSt → Nat → PassSt) (doc : Doc) (c : Nat)
    (hp : ∀ st i x, x ∈ (process st i).fields → x ∈ st.fields ∨ x.isGroup = false) :
    ∀ x ∈ (runSelectorPass matchers process doc c).fields, x.isGroup = false := by
  unfold runSelectorPass
  refine @foldlInv (Elem → Bool) PassSt (fun st => ∀ x ∈ st.fields, x.isGroup = false)
    _ ?_ matchers _ ?_
  · intro s m hs
    refine @foldlInv Nat PassSt (fun st => ∀ x ∈ st.fields, x.isGroup = false) process ?_ _ s hs
    intro s2 i hs2 x hx
    rcases hp s2 i x hx with h | h
    · exact hs2 x h
    · exact h
  · intro x hx
    exact absurd hx (List.not_mem_nil x)

theorem foldl_mem_chain {α σ : Type} (get : σ → List FormField) (step : σ → α → σ)
    (P : FormField → Prop) (l : List α) (s0 : σ) (x : FormField)
    (hx : x ∈ get (l.foldl step s0))
    (hstep : ∀ s a, a ∈ l → ∀ y ∈ get (step s a), y ∈ get s ∨ P y) :
    x ∈ get s0 ∨ P x := by
  have h := @foldlInvMem α σ (fun s => ∀ y ∈ get s, y ∈ get s0 ∨ P y) step l s0
    (fun y hy => Or.inl hy)
    (fun a ha t ht y hy => (hstep t a ha y hy).elim (fun h2 => ht y h2) (fun h2 => Or.inr h2))
  exact h x hx

theorem legacyFold_counter (step : LegacySt → Nat → LegacySt)
    (hstep : ∀ s i, s.counter ≤ (step s i).counter) (l : List Nat) (s0 : LegacySt) :
    s0.counter ≤ (l.foldl step s0).counter :=
  @foldlInv Nat LegacySt (fun s => s0.counter ≤ s.counter) step
    (fun s a hs => le_trans hs (hstep s a)) l s0 (le_refl _)

theorem group_field_id_range (doc : Doc) (c : Nat) (f : FormField)
    (hf : f ∈ (dfRg doc c).1 ++ (dfCg doc c).1) :
    ∃ k, c < k ∧ k ≤ (dfCg doc c).2 ∧ f.id = fieldIdString k := by
  unfold dfCg dfRg at hf ⊢
  have hrg := groupRadioButtons_spec doc c
  have hcg := groupCheckboxes_spec doc (groupRadioButtons doc c).2
  rcases List.mem_append.mp hf with h | h
  · rcases (hrg.2 f h).2 with ⟨k, hk1, hk2, hk3⟩
    exact ⟨k, hk1, le_trans hk2 hcg.1, hk3⟩
  · rcases (hcg.2 f h).2 with ⟨k, hk1, hk2, hk3⟩
    exact ⟨k, lt_of_le_of_lt hrg.1 hk1, hk2, hk3⟩

attribute [irreducible] dfRg dfCg dfRadioIds dfCbIds dfSt0 dfP2 dfSt2 dfP3 dfSt3 dfP4 dfSt4 dfP5 dfSt5 dfInputIdxs dfL6a dfTaIdxs dfL6b dfSelIdxs dfL6c

theorem detect_fields_sub_filter (doc : Doc) (c : Nat) (f : FormField)
    (hf : f ∈ (detectFormFields doc c true).fields) :
    f ∈ (detectFormFields doc c false).fields :=
  List.mem_of_mem_filter hf

theorem detect_groups_sub0 (doc : Doc) (c : Nat) :
    ∀ f ∈ (detectFormFields doc c false).fields, f.isGroup = true →
      f ∈ (dfRg doc c).1 ++ (dfCg doc c).1 := by
  intro f hf hg
  have hf0 : f ∈ (dfL6c doc c).merge.allFields := hf
  unfold dfL6c at hf0
  rcases foldl_mem_chain (fun s : LegacySt => s.merge.allFields) legacySelectStep
      (fun x => x.isGroup = false) _ _ f hf0
      (fun s i _ y hy => legacySelectStep_mem s i y hy) with hf1 | hgf
  · unfold dfL6b at hf1
    rcases foldl_mem_chain (fun s : LegacySt => s.merge.allFields) legacyTextareaStep
        (fun x => x.isGroup = false) _ _ f hf1
        (fun s i _ y hy => legacyTextareaStep_mem s i y hy) with hf2 | hgf
    · unfold dfL6a at hf2
      rcases foldl_mem_chain (fun s : LegacySt => s.merge.allFields) (legacyInputStep _ _)
          (fun x => x.isGroup = false) _ _ f hf2
          (fun s i _ y hy => legacyInputStep_mem _ _ s i y hy) with hf3 | hgf
      · have hf3' : f ∈ (dfSt5 doc c).allFields := hf3
        unfold dfSt5 dfP5 at hf3'
        rcases foldl_mem_chain (fun s : MergeSt => s.allFields) mergeDropdown
            (fun x => x.isGroup = false) _ _ f hf3'
            (fun s a ha y hy => (mergeDropdown_mem s a y hy).imp id
              (fun hq => by
                rw [hq]
                exact runSelectorPass_isGroup _ _ _ _ processDropdownElem_fields a ha))
            with hf4 | hgf
        · unfold dfSt4 dfP4 at hf4
          rcases foldl_mem_chain (fun s : MergeSt => s.allFields) (mergeAria _ _)
              (fun x => x.isGroup = false) _ _ f hf4
              (fun s a ha y hy => (mergeAria_mem _ _ s a y hy).imp id
                (fun hq => by
                  rw [hq]
                  exact runSelectorPass_isGroup _ _ _ _ processStandardElem_fields a ha))
              with hf5 | hgf
          · unfold dfSt3 dfP3 at hf5
            rcases foldl_mem_chain (fun s : MergeSt => s.allFields) (mergeTabOrder _ _)
                (fun x => x.isGroup = false) _ _ f hf5
                (fun s a ha y hy => (mergeTabOrder_mem _ _ s a y hy).imp id
                  (fun hq => by
                    rw [hq]
                    exact runSelectorPass_isGroup _ _ _ _ processStandardElem_fields a ha))
                with hf6 | hgf
            · unfold dfSt2 dfP2 at hf6
              rcases foldl_mem_chain (fun s : MergeSt => s.allFields) (mergeFocusable _ _)
                  (fun x => x.isGroup = false) _ _ f hf6
                  (fun s a ha y hy => (mergeFocusable_mem _ _ s a y hy).imp id
                    (fun hq => by
                      rw [hq]
                      exact runSelectorPass_isGroup _ _ _ _ processFocusableElem_fields a ha))
                  with hf7 | hgf
              · unfold dfSt0 at hf7
                rcases foldl_mem_chain (fun s : MergeSt => s.allFields) MergeSt.push
                    (fun x => x ∈ (dfRg doc c).1 ++ (dfCg doc c).1)
                    _ _ f hf7
                    (fun s a ha y hy => (MergeSt.push_mem s a y hy).imp id
                      (fun hq => by rw [hq]; exact ha))
                    with hf8 | hdone
                · exact absurd hf8 (List.not_mem_nil f)
                · exact hdone
              · rw [hgf] at hg; exact Bool.noConfusion hg
            · rw [hgf] at hg; exact Bool.noConfusion hg
          · rw [hgf] at hg; exact Bool.noConfusion hg
        · rw [hgf] at hg; exact Bool.noConfusion hg
      · rw [hgf] at hg; exact Bool.noConfusion hg
    · rw [hgf] at hg; exact Bool.noConfusion hg
  · rw [hgf] at hg; exact Bool.noConfusion hg

theorem detect_groups_sub (doc : Doc) (c : Nat) (fe : Bool) :
    ∀ f ∈ (detectFormFields doc c fe).fields, f.isGroup = true →
      f ∈ (dfRg doc c).1 ++ (dfCg doc c).1 := by
  intro f hf hg
  cases fe
  · exact detect_groups_sub0 doc c f hf hg
  · exact detect_groups_sub0 doc c f (detect_fields_sub_filter doc c f hf) hg

theorem detect_counter_ge (doc : Doc) (c : Nat) (fe : Bool) :
    (dfCg doc c).2 ≤ (detectFormFields doc c fe).counter := by
  have h2 : (dfCg doc c).2 ≤ (dfP2 doc c).counter := by
    unfold dfP2
    exact runSelectorPass_counter _ _ _ _ processFocusableElem_counter
  have h3 : (dfP2 doc c).counter ≤ (dfP3 doc c).counter := by
    unfold dfP3
    exact runSelectorPass_counter _ _ _ _ processStandardElem_counter
  have h4 : (dfP3 doc c).counter ≤ (dfP4 doc c).counter := by
    unfold dfP4
    exact runSelectorPass_counter _ _ _ _ processStandardElem_counter
  have h5 : (dfP4 doc c).counter ≤ (dfP5 doc c).counter := by
    unfold dfP5
    exact runSelectorPass_counter _ _ _ _ processDropdownElem_counter
  have h6a : (dfP5 doc c).counter ≤ (dfL6a doc c).counter := by
    unfold dfL6a
    exact legacyFold_counter (legacyInputStep (dfRadioIds doc c) (dfCbIds doc c))
      (legacyInputStep_counter _ _) (dfInputIdxs doc c)
      { merge := dfSt5 doc c, doc := (dfP5 doc c).doc, counter := (dfP5 doc c).counter }
  have h6b : (dfL6a doc c).counter ≤ (dfL6b doc c).counter := by
    unfold dfL6b
    exact legacyFold_counter _ legacyTextareaStep_counter _ _
  have h6c : (dfL6b doc c).counter ≤ (dfL6c doc c).counter := by
    unfold dfL6c
    exact legacyFold_counter _ legacySelectStep_counter _ _
  have hfin : (detectFormFields doc c fe).counter = (dfL6c doc c).counter := rfl
  rw [hfin]
  omega

set_option allowUnsafeReducibility true in
attribute [semireducible] dfRg dfCg dfRadioIds dfCbIds dfSt0 dfP2 dfSt2 dfP3 dfSt3 dfP4 dfSt4 dfP5 dfSt5 dfInputIdxs dfL6a dfTaIdxs dfL6b dfSelIdxs dfL6c

/-! ### Claim C1 -/

set_option maxRecDepth 4000 in
/-- Counterexample to C1: on a static two-radio document, the first scan
emits the synthesized radio-group under identifier ai-applier-field-1, but
re-running discovery on the (unchanged) resulting document yields the same
group under ai-applier-field-2 - the (identifier, type, label) triples of
the two scans differ, because the shared identifier counter keeps growing
across scans and a synthesized group never receives a document id. -/
theorem detect_rescan_counterexample :
    ("ai-applier-field-1", "radio-group", "Consent") ∈
      (detectFormFields docConsent 0 false).fields.map (fun f => (f.id, f.type, f.label)) ∧
    ("ai-applier-field-1", "radio-group", "Consent") ∉
      (detectFormFields (detectFormFields docConsent 0 false).doc
        (detectFormFields docConsent 0 false).counter false).fields.map
          (fun f => (f.id, f.type, f.label)) := by
  decide

/-- C1: discovery is NOT idempotent on synthesized group descriptors; the
claim is corrected to the precise failure law: every radio-group or
checkbox-group descriptor of a re-scan carries an identifier distinct from
that of every group descriptor of the first scan (group identifiers are
drawn from the strictly increasing counter, above the final counter of the
previous scan), so the (identifier, type, label) triples of a document
holding a synthesized group are never stable under re-scanning. -/
theorem detect_group_ids_fresh (doc : Doc) (c : Nat) (fe1 fe2 : Bool) :
    ∀ f1 ∈ (detectFormFields doc c fe1).fields, f1.isGroup = true →
    ∀ f2 ∈ (detectFormFields (detectFormFields doc c fe1).doc
              (detectFormFields doc c fe1).counter fe2).fields, f2.isGroup = true →
      f1.id ≠ f2.id := by
  intro f1 h1 hg1 f2 h2 hg2
  rcases group_field_id_range doc c f1
      (detect_groups_sub doc c fe1 f1 h1 hg1) with ⟨k1, hk1a, hk1b, hk1c⟩
  rcases group_field_id_range (detectFormFields doc c fe1).doc
      (detectFormFields doc c fe1).counter f2
      (detect_groups_sub _ _ fe2 f2 h2 hg2) with ⟨k2, hk2a, hk2b, hk2c⟩
  have hcnt := detect_counter_ge doc c fe1
  intro heq
  rw [hk1c, hk2c] at heq
  have hkk := fieldIdString_injective heq
  omega

set_option maxRecDepth 8000 in
/-- Witness for C1: the synthesized consent radio-group of the first scan
and that of the re-scan carry different identifiers. -/
theorem detect_group_ids_fresh_witness :
    ((detectFormFields docConsent 0 false).fields.headD default).id ≠
    ((detectFormFields (detectFormFields docConsent 0 false).doc
        (detectFormFields docConsent 0 false).counter false).fields.headD default).id :=
  detect_group_ids_fresh docConsent 0 false false
    ((detectFormFields docConsent 0 false).fields.headD default) (List.Mem.head _) (by decide)
    ((detectFormFields (detectFormFields docConsent 0 false).doc
        (detectFormFields docConsent 0 false).counter false).fields.headD default)
    (List.Mem.head _) (by decide)

/-! ### Claim C2 infrastructure: group-member characterization -/

theorem docIdx_spec (doc : Doc) (q : Nat × Elem → Bool) (p : Nat × Elem)
    (hp : p ∈ doc.elems.enum.filter q) :
    p.1 < doc.elems.length ∧ doc.elemAt p.1 = p.2 ∧ q p = true := by
  have h1 := List.mem_filter.mp hp
  have h2 := List.mem_enum_iff_getElem?.mp h1.1
  have hlt : p.1 < doc.elems.length := by
    by_contra hge
    rw [List.getElem?_eq_none (Nat.le_of_not_lt hge)] at h2
    exact Option.noConfusion h2
  refine ⟨hlt, ?_, h1.2⟩
  show doc.elems.getD p.1 {} = p.2
  rw [List.getD_eq_getElem?_getD, h2]
  rfl

theorem docIdx_memmap (doc : Doc) (q : Nat × Elem → Bool) (i : Nat)
    (h : i ∈ (doc.elems.enum.filter q).map (fun p => p.1)) :
    i < doc.elems.length ∧ q (i, doc.elemAt i) = true := by
  rcases List.mem_map.mp h with ⟨p, hp, hpi⟩
  rcases docIdx_spec doc q p hp with ⟨hl, he, hq⟩
  subst hpi
  refine ⟨hl, ?_⟩
  have hpe : ((p.1 : Nat), doc.elemAt p.1) = p := by rw [he]
  rw [hpe]
  exact hq

theorem insertGrouped_mem (key : String) (i : Nat) :
    ∀ (gs : List (String × List Nat)) (g : String × List Nat), g ∈ insertGrouped gs key i →
      ∀ m ∈ g.2, (∃ g0 ∈ gs, m ∈ g0.2) ∨ m = i := by
  intro gs
  induction gs with
  | nil =>
    intro g hg m hm
    simp only [insertGrouped, List.mem_singleton] at hg
    subst hg
    simp only [List.mem_singleton] at hm
    exact Or.inr hm
  | cons a rest ih =>
    intro g hg m hm
    obtain ⟨k, l⟩ := a
    simp only [insertGrouped] at hg
    by_cases hk : k = key
    · rw [if_pos hk] at hg
      rcases List.mem_cons.mp hg with rfl | hgr
      · rcases List.mem_append.mp hm with hml | hmi
        · exact Or.inl ⟨(k, l), List.mem_cons_self _ _, hml⟩
        · exact Or.inr (List.mem_singleton.mp hmi)
      · exact Or.inl ⟨g, List.mem_cons_of_mem _ hgr, hm⟩
    · rw [if_neg hk] at hg
      rcases List.mem_cons.mp hg with rfl | hgr
      · exact Or.inl ⟨(k, l), List.mem_cons_self _ _, hm⟩
      · rcases ih g hgr m hm with ⟨g0, hg0, hm0⟩ | hmi
        · exact Or.inl ⟨g0, List.mem_cons_of_mem _ hg0, hm0⟩
        · exact Or.inr hmi

theorem insertCbGroup_mem (key label description : String) (i : Nat) :
    ∀ (gs : List CbGroup) (g : CbGroup), g ∈ insertCbGroup gs key label description i →
      ∀ m ∈ g.members, (∃ g0 ∈ gs, m ∈ g0.members) ∨ m = i := by
  intro gs
  induction gs with
  | nil =>
    intro g hg m hm
    simp only [insertCbGroup, List.mem_singleton] at hg
    subst hg
    simp only [List.mem_singleton] at hm
    exact Or.inr hm
  | cons a rest ih =>
    intro g hg m hm
    simp only [insertCbGroup] at hg
    by_cases hk : a.key = key
    · rw [if_pos hk] at hg
      rcases List.mem_cons.mp hg with rfl | hgr
      · rcases List.mem_append.mp hm with hml | hmi
        · exact Or.inl ⟨a, List.mem_cons_self _ _, hml⟩
        · exact Or.inr (List.mem_singleton.mp hmi)
      · exact Or.inl ⟨g, List.mem_cons_of_mem _ hgr, hm⟩
    · rw [if_neg hk] at hg
      rcases List.mem_cons.mp hg with rfl | hgr
      · exact Or.inl ⟨_, List.mem_cons_self _ _, hm⟩
      · rcases ih g hgr m hm with ⟨g0, hg0, hm0⟩ | hmi
        · exact Or.inl ⟨g0, List.mem_cons_of_mem _ hg0, hm0⟩
        · exact Or.inr hmi

theorem radioGroupsOf_mem (doc : Doc) :
    ∀ g ∈ radioGroupsOf doc, ∀ m ∈ g.2, m < doc.elems.length ∧
      (doc.elemAt m).tag = "input" ∧ (doc.elemAt m).type = "radio" := by
  unfold radioGroupsOf
  refine @foldlInvMem (Nat × Elem) (List (String × List Nat))
    (fun gs => ∀ g ∈ gs, ∀ m ∈ g.2, m < doc.elems.length ∧
      (doc.elemAt m).tag = "input" ∧ (doc.elemAt m).type = "radio")
    _ _ [] ?_ ?_
  · intro g hg
    exact absurd hg (List.not_mem_nil g)
  · intro p hp t ht
    show ∀ g ∈ (if p.2.disabled || p.2.name = "" then t else insertGrouped t p.2.name p.1),
      ∀ m ∈ g.2, m < doc.elems.length ∧
        (doc.elemAt m).tag = "input" ∧ (doc.elemAt m).type = "radio"
    split
    · exact ht
    · intro g hg m hm
      rcases insertGrouped_mem _ _ t g hg m hm with ⟨g0, hg0, hm0⟩ | rfl
      · exact ht g0 hg0 m hm0
      · rcases docIdx_spec doc _ p hp with ⟨hl, he, hq⟩
        simp only [Bool.and_eq_true, decide_eq_true_eq] at hq
        exact ⟨hl, by rw [he]; exact hq.1, by rw [he]; exact hq.2⟩

theorem checkboxGroupsOf_mem (doc : Doc) :
    ∀ g ∈ checkboxGroupsOf doc, ∀ m ∈ g.members, m < doc.elems.length ∧
      (doc.elemAt m).tag = "input" ∧ (doc.elemAt m).type = "checkbox" := by
  unfold checkboxGroupsOf
  refine @foldlInvMem (Nat × Elem) (List CbGroup)
    (fun gs => ∀ g ∈ gs, ∀ m ∈ g.members, m < doc.elems.length ∧
      (doc.elemAt m).tag = "input" ∧ (doc.elemAt m).type = "checkbox")
    _ _ [] ?_ ?_
  · intro g hg
    exact absurd hg (List.not_mem_nil g)
  · intro p hp t ht
    show ∀ g ∈ (if p.2.disabled then t else
        match checkboxGroupKey doc p.2 with
        | some k => insertCbGroup t k.1 k.2.1 k.2.2 p.1
        | none => t),
      ∀ m ∈ g.members, m < doc.elems.length ∧
        (doc.elemAt m).tag = "input" ∧ (doc.elemAt m).type = "checkbox"
    split
    · exact ht
    · split
      · intro g hg m hm
        rcases insertCbGroup_mem _ _ _ _ t g hg m hm with ⟨g0, hg0, hm0⟩ | rfl
        · exact ht g0 hg0 m hm0
        · rcases docIdx_spec doc _ p hp with ⟨hl, he, hq⟩
          simp only [Bool.and_eq_true, decide_eq_true_eq] at hq
          exact ⟨hl, by rw [he]; exact hq.1, by rw [he]; exact hq.2⟩
      · exact ht

theorem groupRadioButtons_options (doc : Doc) (c : Nat) :
    ∀ f ∈ (groupRadioButtons doc c).1, ∃ g ∈ radioGroupsOf doc,
      f.options = some (g.2.map (mkMemberOption doc)) := by
  have h := @foldlInvMem (String × List Nat) (List FormField × Nat)
    (fun acc => ∀ f ∈ acc.1, ∃ g ∈ radioGroupsOf doc,
      f.options = some (g.2.map (mkMemberOption doc)))
    (fun acc g =>
      if g.2.length = 0 then acc
      else
        let fc := mkRadioGroupField doc g.1 g.2 acc.2
        (acc.1 ++ [fc.1], fc.2))
    (radioGroupsOf doc) ([], c) ?_ ?_
  · exact h
  · intro f hf
    exact absurd hf (List.not_mem_nil f)
  · intro g hgmem t ht
    have hred : (fun (acc : List FormField × Nat) (g : String × List Nat) =>
        if g.2.length = 0 then acc
        else
          let fc := mkRadioGroupField doc g.1 g.2 acc.2
          (acc.1 ++ [fc.1], fc.2)) t g
        = (if g.2.length = 0 then t else
          (t.1 ++ [(mkRadioGroupField doc g.1 g.2 t.2).1],
           (mkRadioGroupField doc g.1 g.2 t.2).2)) := rfl
    rw [hred]
    by_cases hlen : g.2.length = 0
    · rw [if_pos hlen]
      exact ht
    · rw [if_neg hlen]
      intro f hf
      rcases List.mem_append.mp hf with hf1 | hf2
      · exact ht f hf1
      · have hfe : f = (mkRadioGroupField doc g.1 g.2 t.2).1 := by simpa using hf2
        subst hfe
        exact ⟨g, hgmem, rfl⟩

theorem groupCheckboxes_options (doc : Doc) (c : Nat) :
    ∀ f ∈ (groupCheckboxes doc c).1, ∃ g ∈ checkboxGroupsOf doc,
      f.options = some (g.members.map (mkMemberOption doc)) := by
  have h := @foldlInvMem CbGroup (List FormField × Nat)
    (fun acc => ∀ f ∈ acc.1, ∃ g ∈ checkboxGroupsOf doc,
      f.options = some (g.members.map (mkMemberOption doc)))
    (fun acc g =>
      if g.members.length < 2 then acc
      else
        let fc := mkCheckboxGroupField doc g acc.2
        (acc.1 ++ [fc.1], fc.2))
    (checkboxGroupsOf doc) ([], c) ?_ ?_
  · exact h
  · intro f hf
    exact absurd hf (List.not_mem_nil f)
  · intro g hgmem t ht
    have hred : (fun (acc : List FormField × Nat) (g : CbGroup) =>
        if g.members.length < 2 then acc
        else
          let fc := mkCheckboxGroupField doc g acc.2
          (acc.1 ++ [fc.1], fc.2)) t g
        = (if g.members.length < 2 then t else
          (t.1 ++ [(mkCheckboxGroupField doc g t.2).1],
           (mkCheckboxGroupField doc g t.2).2)) := rfl
    rw [hred]
    by_cases hlen : g.members.length < 2
    · rw [if_pos hlen]
      exact ht
    · rw [if_neg hlen]
      intro f hf
      rcases List.mem_append.mp hf with hf1 | hf2
      · exact ht f hf1
      · have hfe : f = (mkCheckboxGroupField doc g t.2).1 := by simpa using hf2
        subst hfe
        exact ⟨g, hgmem, rfl⟩

theorem radioMemberIds_spec (doc : Doc) (c : Nat) (s : String) (hs : s ∈ dfRadioIds doc c) :
    s ≠ "" ∧ ∃ m, m < doc.elems.length ∧ (doc.elemAt m).tag = "input" ∧
      (doc.elemAt m).type = "radio" ∧ (doc.elemAt m).id = s := by
  unfold dfRadioIds dfRg at hs
  rcases List.mem_flatMap.mp hs with ⟨f, hf, hsf⟩
  rcases groupRadioButtons_options doc c f hf with ⟨g, hg, hopt⟩
  unfold optionMemberIds at hsf
  rw [hopt] at hsf
  have hsf2 := List.mem_filter.mp hsf
  have hne : s ≠ "" := by simpa using hsf2.2
  refine ⟨hne, ?_⟩
  rcases List.mem_map.mp hsf2.1 with ⟨o, ho, hoid⟩
  rcases List.mem_map.mp ho with ⟨m, hm, hmo⟩
  rcases radioGroupsOf_mem doc g hg m hm with ⟨hl, ht, hty⟩
  refine ⟨m, hl, ht, hty, ?_⟩
  rw [← hoid, ← hmo]
  rfl

theorem cbMemberIds_spec (doc : Doc) (c : Nat) (s : String) (hs : s ∈ dfCbIds doc c) :
    s ≠ "" ∧ ∃ m, m < doc.elems.length ∧ (doc.elemAt m).tag = "input" ∧
      (doc.elemAt m).type = "checkbox" ∧ (doc.elemAt m).id = s := by
  unfold dfCbIds dfCg at hs
  rcases List.mem_flatMap.mp hs with ⟨f, hf, hsf⟩
  rcases groupCheckboxes_options doc (dfRg doc c).2 f hf with ⟨g, hg, hopt⟩
  unfold optionMemberIds at hsf
  rw [hopt] at hsf
  have hsf2 := List.mem_filter.mp hsf
  have hne : s ≠ "" := by simpa using hsf2.2
  refine ⟨hne, ?_⟩
  rcases List.mem_map.mp hsf2.1 with ⟨o, ho, hoid⟩
  rcases List.mem_map.mp ho with ⟨m, hm, hmo⟩
  rcases checkboxGroupsOf_mem doc g hg m hm with ⟨hl, ht, hty⟩
  refine ⟨m, hl, ht, hty, ?_⟩
  rw [← hoid, ← hmo]
  rfl

attribute [irreducible] dfRg dfCg dfRadioIds dfCbIds dfSt0 dfP2 dfSt2 dfP3 dfSt3 dfP4 dfSt4 dfP5 dfSt5 dfInputIdxs dfL6a dfTaIdxs dfL6b dfSelIdxs dfL6c

/-! ### Doc preservation under complete ids -/

theorem processFocusableElem_doc (st : PassSt) (i : Nat)
    (hid : (st.doc.elemAt i).id ≠ "") : (processFocusableElem st i).doc = st.doc := by
  simp only [processFocusableElem]
  repeat' split
  all_goals first
  | rfl
  | (rename_i hemp; exact absurd hemp hid)

theorem processStandardElem_doc (st : PassSt) (i : Nat)
    (hid : (st.doc.elemAt i).id ≠ "") : (processStandardElem st i).doc = st.doc := by
  simp only [processStandardElem]
  repeat' split
  all_goals first
  | rfl
  | (rename_i hemp; exact absurd hemp hid)

theorem processDropdownElem_doc (st : PassSt) (i : Nat)
    (hid : (st.doc.elemAt i).id ≠ "") : (processDropdownElem st i).doc = st.doc := by
  simp only [processDropdownElem]
  repeat' split
  all_goals first
  | rfl
  | (rename_i hemp; exact absurd hemp hid)

theorem legacyInputStep_doc (radioIds cbIds : List String) (st : LegacySt) (i : Nat)
    (hid : (st.doc.elemAt i).id ≠ "") :
    (legacyInputStep radioIds cbIds st i).doc = st.doc := by
  simp only [legacyInputStep]
  repeat' split
  all_goals first
  | rfl
  | (rename_i hemp; exact absurd hemp hid)

theorem legacyTextareaStep_doc (st : LegacySt) (i : Nat)
    (hid : (st.doc.elemAt i).id ≠ "") :
    (legacyTextareaStep st i).doc = st.doc := by
  simp only [legacyTextareaStep]
  repeat' split
  all_goals first
  | rfl
  | (rename_i hemp; exact absurd hemp hid)

theorem legacySelectStep_doc (st : LegacySt) (i : Nat)
    (hid : (st.doc.elemAt i).id ≠ "") :
    (legacySelectStep st i).doc = st.doc := by
  simp only [legacySelectStep]
  repeat' split
  all_goals first
  | rfl
  | (rename_i hemp; exact absurd hemp hid)

theorem runSelectorPass_doc (matchers : List (Elem → Bool)) (process : PassSt → Nat → PassSt)
    (doc : Doc) (c : Nat)
    (hids : ∀ e ∈ doc.elems, e.id ≠ "")
    (hp : ∀ st i, (st.doc.elemAt i).id ≠ "" → (process st i).doc = st.doc) :
    (runSelectorPass matchers process doc c).doc = doc := by
  unfold runSelectorPass
  refine @foldlInv (Elem → Bool) PassSt (fun st => st.doc = doc) _ ?_ matchers _ rfl
  intro s m hs
  refine @foldlInvMem Nat PassSt (fun st => st.doc = doc) process _ s hs ?_
  intro i hi t ht
  rw [hs] at hi
  rcases docIdx_memmap doc _ i hi with ⟨hl, _⟩
  have hide : (t.doc.elemAt i).id ≠ "" := by
    rw [ht]
    exact hids _ (elemAt_mem hl)
  rw [hp t i hide]
  exact ht

theorem dfP2_doc (doc : Doc) (c : Nat) (h1 : ∀ e ∈ doc.elems, e.id ≠ "") :
    (dfP2 doc c).doc = doc := by
  unfold dfP2 detectFocusableFormFields
  exact runSelectorPass_doc _ _ _ _ h1 (fun st i hid => processFocusableElem_doc st i hid)

theorem dfP3_doc (doc : Doc) (c : Nat) (h1 : ∀ e ∈ doc.elems, e.id ≠ "") :
    (dfP3 doc c).doc = doc := by
  unfold dfP3 detectByTabOrder
  rw [dfP2_doc doc c h1]
  exact runSelectorPass_doc _ _ _ _ h1 (fun st i hid => processStandardElem_doc st i hid)

theorem dfP4_doc (doc : Doc) (c : Nat) (h1 : ∀ e ∈ doc.elems, e.id ≠ "") :
    (dfP4 doc c).doc = doc := by
  unfold dfP4 detectAccessibilityFields
  rw [dfP3_doc doc c h1]
  exact runSelectorPass_doc _ _ _ _ h1 (fun st i hid => processStandardElem_doc st i hid)

theorem dfP5_doc (doc : Doc) (c : Nat) (h1 : ∀ e ∈ doc.elems, e.id ≠ "") :
    (dfP5 doc c).doc = doc := by
  unfold dfP5 detectCustomDropdowns
  rw [dfP4_doc doc c h1]
  exact runSelectorPass_doc _ _ _ _ h1 (fun st i hid => processDropdownElem_doc st i hid)

theorem legacyFold_doc (doc : Doc) (step : LegacySt → Nat → LegacySt)
    (hp : ∀ s i, (s.doc.elemAt i).id ≠ "" → (step s i).doc = s.doc)
    (hids : ∀ e ∈ doc.elems, e.id ≠ "")
    (l : List Nat) (hl : ∀ i ∈ l, i < doc.elems.length)
    (s0 : LegacySt) (hs0 : s0.doc = doc) :
    (l.foldl step s0).doc = doc := by
  refine @foldlInvMem Nat LegacySt (fun s => s.doc = doc) step l s0 hs0 ?_
  intro i hi t ht
  have hid : (t.doc.elemAt i).id ≠ "" := by
    rw [ht]
    exact hids _ (elemAt_mem (hl i hi))
  rw [hp t i hid]
  exact ht

theorem dfInputIdxs_lt (doc : Doc) (c : Nat) (h1 : ∀ e ∈ doc.elems, e.id ≠ "") :
    ∀ i ∈ dfInputIdxs doc c, i < doc.elems.length := by
  intro i hi
  unfold dfInputIdxs at hi
  rw [dfP5_doc doc c h1] at hi
  exact (docIdx_memmap doc _ i hi).1

theorem dfL6a_doc (doc : Doc) (c : Nat) (h1 : ∀ e ∈ doc.elems, e.id ≠ "") :
    (dfL6a doc c).doc = doc := by
  unfold dfL6a
  exact legacyFold_doc doc _ (fun s i hid => legacyInputStep_doc _ _ s i hid) h1
    _ (dfInputIdxs_lt doc c h1)
    { merge := dfSt5 doc c, doc := (dfP5 doc c).doc, counter := (dfP5 doc c).counter }
    (dfP5_doc doc c h1)

theorem dfTaIdxs_spec (doc : Doc) (c : Nat) (h1 : ∀ e ∈ doc.elems, e.id ≠ "") :
    ∀ i ∈ dfTaIdxs doc c, i < doc.elems.length ∧ (doc.elemAt i).tag = "textarea" := by
  intro i hi
  unfold dfTaIdxs at hi
  rw [dfL6a_doc doc c h1] at hi
  rcases docIdx_memmap doc _ i hi with ⟨hl, hq⟩
  simp only [decide_eq_true_eq] at hq
  exact ⟨hl, hq⟩

theorem dfL6b_doc (doc : Doc) (c : Nat) (h1 : ∀ e ∈ doc.elems, e.id ≠ "") :
    (dfL6b doc c).doc = doc := by
  unfold dfL6b
  exact legacyFold_doc doc _ (fun s i hid => legacyTextareaStep_doc s i hid) h1
    _ (fun i hi => (dfTaIdxs_spec doc c h1 i hi).1) _ (dfL6a_doc doc c h1)

theorem dfSelIdxs_spec (doc : Doc) (c : Nat) (h1 : ∀ e ∈ doc.elems, e.id ≠ "") :
    ∀ i ∈ dfSelIdxs doc c, i < doc.elems.length ∧ (doc.elemAt i).tag = "select" := by
  intro i hi
  unfold dfSelIdxs at hi
  rw [dfL6b_doc doc c h1] at hi
  rcases docIdx_memmap doc _ i hi with ⟨hl, hq⟩
  simp only [decide_eq_true_eq] at hq
  exact ⟨hl, hq⟩

theorem dfL6c_doc (doc : Doc) (c : Nat) (h1 : ∀ e ∈ doc.elems, e.id ≠ "") :
    (dfL6c doc c).doc = doc := by
  unfold dfL6c
  exact legacyFold_doc doc _ (fun s i hid => legacySelectStep_doc s i hid) h1
    _ (fun i hi => (dfSelIdxs_spec doc c h1 i hi).1) _ (dfL6b_doc doc c h1)

/-! ### The custom-dropdown pass on dropdown-free documents -/

theorem enum_snd_mem {α : Type} (l : List α) (p : Nat × α) (hp : p ∈ l.enum) : p.2 ∈ l := by
  have h2 := List.mem_enum_iff_getElem?.mp hp
  rcases List.getElem?_eq_some.mp h2 with ⟨h, he⟩
  exact he ▸ List.getElem_mem h

theorem detectCustomDropdowns_empty (d : Doc) (c : Nat)
    (h3 : ∀ e ∈ d.elems, dropdownLikeElem e = false) :
    (detectCustomDropdowns d c).fields = [] := by
  unfold detectCustomDropdowns runSelectorPass
  have h := @foldlInvMem (Elem → Bool) PassSt
    (fun st => st.fields = [] ∧ st.doc = d)
    (fun st m =>
      (((st.doc.elems.enum.filter (fun p => m p.2)).map (·.1)).foldl processDropdownElem st))
    dropdownMatchers { doc := d, counter := c } ⟨rfl, rfl⟩ ?_
  · exact h.1
  · intro m hm t ht
    have hf : d.elems.enum.filter (fun p => m p.2) = [] := by
      rw [List.filter_eq_nil_iff]
      intro p hp
      have hd := h3 p.2 (enum_snd_mem _ p hp)
      simp only [dropdownLikeElem, Bool.or_eq_false_iff] at hd
      obtain ⟨⟨⟨⟨h1a, h1b⟩, h1c⟩, h1d⟩, h1e⟩ := hd
      fin_cases hm
      · simpa using h1a
      · simpa using h1b
      · simpa using h1c
      · simpa using h1d
      · simpa using h1e
    show ((((t.doc.elems.enum.filter (fun p => m p.2)).map (·.1)).foldl
        processDropdownElem t).fields = [] ∧
      (((t.doc.elems.enum.filter (fun p => m p.2)).map (·.1)).foldl
        processDropdownElem t).doc = d)
    rw [ht.2, hf]
    exact ht

/-! ### Merge guards: standalone descriptors never carry member ids -/

theorem contains_of_guard (ids : List String) (s : String)
    (he : ids.contains "" = false)
    (hb : ¬((s ≠ "") && ids.contains s) = true) : ids.contains s = false := by
  rw [Bool.not_eq_true, Bool.and_eq_false_iff] at hb
  rcases hb with hb | hb
  · have hs : s = "" := by simpa using hb
    rw [hs]
    exact he
  · exact hb

theorem mergeFocusable_guard (radioIds cbIds : List String)
    (hre : radioIds.contains "" = false) (hce : cbIds.contains "" = false)
    (st : MergeSt) (f x : FormField)
    (hx : x ∈ (mergeFocusable radioIds cbIds st f).allFields) :
    x ∈ st.allFields ∨
      (radioIds.contains x.id = false ∧ cbIds.contains x.id = false) := by
  simp only [mergeFocusable] at hx
  split at hx
  · exact Or.inl hx
  · rename_i hb1
    split at hx
    · exact Or.inl hx
    · rename_i hb2
      split at hx
      · split at hx
        · split at hx
          · rcases replaceInFields_mem _ _ _ hx with h | heq
            · exact Or.inl h
            · subst heq
              exact Or.inr ⟨contains_of_guard _ _ hre hb1, contains_of_guard _ _ hce hb2⟩
          · exact Or.inl hx
        · exact Or.inl hx
      · rcases MergeSt.push_mem _ _ _ hx with h | heq
        · exact Or.inl h
        · subst heq
          exact Or.inr ⟨contains_of_guard _ _ hre hb1, contains_of_guard _ _ hce hb2⟩

theorem mergeTabOrder_guard (radioIds cbIds : List String)
    (hre : radioIds.contains "" = false) (hce : cbIds.contains "" = false)
    (st : MergeSt) (f x : FormField)
    (hx : x ∈ (mergeTabOrder radioIds cbIds st f).allFields) :
    x ∈ st.allFields ∨
      (radioIds.contains x.id = false ∧ cbIds.contains x.id = false) := by
  simp only [mergeTabOrder] at hx
  split at hx
  · exact Or.inl hx
  · rename_i hb1
    split at hx
    · exact Or.inl hx
    · rename_i hb2
      split at hx
      · rcases MergeSt.push_mem _ _ _ hx with h | heq
        · exact Or.inl h
        · subst heq
          exact Or.inr ⟨contains_of_guard _ _ hre hb1, contains_of_guard _ _ hce hb2⟩
      · exact Or.inl hx

theorem mergeAria_guard (radioIds cbIds : List String)
    (hre : radioIds.contains "" = false) (hce : cbIds.contains "" = false)
    (st : MergeSt) (f x : FormField)
    (hx : x ∈ (mergeAria radioIds cbIds st f).allFields) :
    x ∈ st.allFields ∨
      (radioIds.contains x.id = false ∧ cbIds.contains x.id = false) := by
  simp only [mergeAria] at hx
  split at hx
  · exact Or.inl hx
  · rename_i hb1
    split at hx
    · exact Or.inl hx
    · rename_i hb2
      split at hx
      · rcases MergeSt.push_mem _ _ _ hx with h | heq
        · exact Or.inl h
        · subst heq
          exact Or.inr ⟨contains_of_guard _ _ hre hb1, contains_of_guard _ _ hce hb2⟩
      · split at hx
        · split at hx
          · split at hx
            · rcases replaceInFields_mem _ _ _ hx with h | heq
              · exact Or.inl h
              · subst heq
                exact Or.inr ⟨contains_of_guard _ _ hre hb1, contains_of_guard _ _ hce hb2⟩
            · exact Or.inl hx
          · exact Or.inl hx
        · exact Or.inl hx

theorem contains_true_of_mem (l : List String) (s : String) (h : s ∈ l) :
    l.contains s = true := List.elem_iff.mpr h

theorem dfRadioIds_no_empty (doc : Doc) (c : Nat) :
    (dfRadioIds doc c).contains "" = false := by
  cases hcc : (dfRadioIds doc c).contains "" with
  | false => rfl
  | true =>
    have hmem : "" ∈ dfRadioIds doc c := List.elem_iff.mp hcc
    exact absurd rfl (radioMemberIds_spec doc c "" hmem).1

theorem dfCbIds_no_empty (doc : Doc) (c : Nat) :
    (dfCbIds doc c).contains "" = false := by
  cases hcc : (dfCbIds doc c).contains "" with
  | false => rfl
  | true =>
    have hmem : "" ∈ dfCbIds doc c := List.elem_iff.mp hcc
    exact absurd rfl (cbMemberIds_spec doc c "" hmem).1

theorem no_collision (ids : List String) (doc : Doc) (ty : String)
    (hspec : ∀ s ∈ ids, ∃ m, m < doc.elems.length ∧ (doc.elemAt m).tag = "input" ∧
      (doc.elemAt m).type = ty ∧ (doc.elemAt m).id = s)
    (h2 : ∀ i, i < doc.elems.length → ∀ j, j < doc.elems.length → i ≠ j →
      (doc.elemAt i).id ≠ (doc.elemAt j).id)
    (i : Nat) (hi : i < doc.elems.length)
    (hne : (doc.elemAt i).tag ≠ "input" ∨ (doc.elemAt i).type ≠ ty) :
    ids.contains (doc.elemAt i).id = false := by
  cases hcc : ids.contains (doc.elemAt i).id with
  | false => rfl
  | true =>
    have hmem : (doc.elemAt i).id ∈ ids := List.elem_iff.mp hcc
    rcases hspec _ hmem with ⟨m, hm, htag, hty, hid⟩
    by_cases him : i = m
    · subst him
      rcases hne with hne | hne
      · exact absurd htag hne
      · exact absurd hty hne
    · exact absurd hid.symm (h2 i hi m hm him)

theorem legacyInputStep_guard (radioIds cbIds : List String) (doc : Doc)
    (hspecR : ∀ s ∈ radioIds, ∃ m, m < doc.elems.length ∧ (doc.elemAt m).tag = "input" ∧
      (doc.elemAt m).type = "radio" ∧ (doc.elemAt m).id = s)
    (hspecC : ∀ s ∈ cbIds, ∃ m, m < doc.elems.length ∧ (doc.elemAt m).tag = "input" ∧
      (doc.elemAt m).type = "checkbox" ∧ (doc.elemAt m).id = s)
    (h2 : ∀ i, i < doc.elems.length → ∀ j, j < doc.elems.length → i ≠ j →
      (doc.elemAt i).id ≠ (doc.elemAt j).id)
    (st : LegacySt) (i : Nat) (hst : st.doc = doc) (hi : i < doc.elems.length)
    (hid : (st.doc.elemAt i).id ≠ "")
    (x : FormField) (hx : x ∈ (legacyInputStep radioIds cbIds st i).merge.allFields) :
    x ∈ st.merge.allFields ∨
      (radioIds.contains x.id = false ∧ cbIds.contains x.id = false) := by
  simp only [legacyInputStep] at hx
  split at hx
  · exact Or.inl hx
  · split at hx
    · exact Or.inl hx
    · rename_i hb2
      split at hx
      · exact Or.inl hx
      · rename_i hb3
        split at hx
        · exact Or.inl hx
        · rcases List.mem_append.mp hx with h | heq
          · exact Or.inl h
          · have hxe := List.mem_singleton.mp heq
            subst hxe
            refine Or.inr ⟨?_, ?_⟩
            · show radioIds.contains (st.doc.elemAt i).id = false
              rw [hst]
              by_cases hrty : (doc.elemAt i).type = "radio"
              · rw [Bool.not_eq_true, Bool.and_eq_false_iff] at hb2
                rcases hb2 with hb | hb
                · rw [hst] at hb
                  simp [hrty] at hb
                · rw [hst] at hb
                  exact hb
              · exact no_collision radioIds doc "radio" hspecR h2 i hi (Or.inr hrty)
            · show cbIds.contains (st.doc.elemAt i).id = false
              rw [hst]
              by_cases hcty : (doc.elemAt i).type = "checkbox"
              · rw [Bool.not_eq_true, Bool.and_eq_false_iff] at hb3
                rcases hb3 with hb | hb
                · rw [hst] at hb
                  simp [hcty] at hb
                · rw [hst] at hb
                  exact hb
              · exact no_collision cbIds doc "checkbox" hspecC h2 i hi (Or.inr hcty)

theorem legacyTextareaStep_guard (radioIds cbIds : List String) (doc : Doc)
    (hspecR : ∀ s ∈ radioIds, ∃ m, m < doc.elems.length ∧ (doc.elemAt m).tag = "input" ∧
      (doc.elemAt m).type = "radio" ∧ (doc.elemAt m).id = s)
    (hspecC : ∀ s ∈ cbIds, ∃ m, m < doc.elems.length ∧ (doc.elemAt m).tag = "input" ∧
      (doc.elemAt m).type = "checkbox" ∧ (doc.elemAt m).id = s)
    (h2 : ∀ i, i < doc.elems.length → ∀ j, j < doc.elems.length → i ≠ j →
      (doc.elemAt i).id ≠ (doc.elemAt j).id)
    (st : LegacySt) (i : Nat) (hst : st.doc = doc) (hi : i < doc.elems.length)
    (htag : (doc.elemAt i).tag = "textarea")
    (hid : (st.doc.elemAt i).id ≠ "")
    (x : FormField) (hx : x ∈ (legacyTextareaStep st i).merge.allFields) :
    x ∈ st.merge.allFields ∨
      (radioIds.contains x.id = false ∧ cbIds.contains x.id = false) := by
  have hnotinput : (doc.elemAt i).tag ≠ "input" := by
    rw [htag]
    decide
  simp only [legacyTextareaStep] at hx
  split at hx
  · exact Or.inl hx
  · split at hx
    · exact Or.inl hx
    · rcases List.mem_append.mp hx with h | heq
      · exact Or.inl h
      · have hxe := List.mem_singleton.mp heq
        subst hxe
        refine Or.inr ⟨?_, ?_⟩
        · show radioIds.contains (st.doc.elemAt i).id = false
          rw [hst]
          exact no_collision radioIds doc "radio" hspecR h2 i hi (Or.inl hnotinput)
        · show cbIds.contains (st.doc.elemAt i).id = false
          rw [hst]
          exact no_collision cbIds doc "checkbox" hspecC h2 i hi (Or.inl hnotinput)

theorem legacySelectStep_guard (radioIds cbIds : List String) (doc : Doc)
    (hspecR : ∀ s ∈ radioIds, ∃ m, m < doc.elems.length ∧ (doc.elemAt m).tag = "input" ∧
      (doc.elemAt m).type = "radio" ∧ (doc.elemAt m).id = s)
    (hspecC : ∀ s ∈ cbIds, ∃ m, m < doc.elems.length ∧ (doc.elemAt m).tag = "input" ∧
      (doc.elemAt m).type = "checkbox" ∧ (doc.elemAt m).id = s)
    (h2 : ∀ i, i < doc.elems.length → ∀ j, j < doc.elems.length → i ≠ j →
      (doc.elemAt i).id ≠ (doc.elemAt j).id)
    (st : LegacySt) (i : Nat) (hst : st.doc = doc) (hi : i < doc.elems.length)
    (htag : (doc.elemAt i).tag = "select")
    (hid : (st.doc.elemAt i).id ≠ "")
    (x : FormField) (hx : x ∈ (legacySelectStep st i).merge.allFields) :
    x ∈ st.merge.allFields ∨
      (radioIds.contains x.id = false ∧ cbIds.contains x.id = false) := by
  have hnotinput : (doc.elemAt i).tag ≠ "input" := by
    rw [htag]
    decide
  simp only [legacySelectStep] at hx
  split at hx
  · exact Or.inl hx
  · split at hx
    · exact Or.inl hx
    · rcases List.mem_append.mp hx with h | heq
      · exact Or.inl h
      · have hxe := List.mem_singleton.mp heq
        subst hxe
        refine Or.inr ⟨?_, ?_⟩
        · show radioIds.contains (st.doc.elemAt i).id = false
          rw [hst]
          exact no_collision radioIds doc "radio" hspecR h2 i hi (Or.inl hnotinput)
        · show cbIds.contains (st.doc.elemAt i).id = false
          rw [hst]
          exact no_collision cbIds doc "checkbox" hspecC h2 i hi (Or.inl hnotinput)

theorem foldl_mem_chainInv {α σ : Type} (get : σ → List FormField) (Q : σ → Prop)
    (step : σ → α → σ) (P : FormField → Prop) (l : List α) (s0 : σ) (x : FormField)
    (hx : x ∈ get (l.foldl step s0)) (hQ0 : Q s0)
    (hQstep : ∀ s a, a ∈ l → Q s → Q (step s a))
    (hstep : ∀ s a, a ∈ l → Q s → ∀ y ∈ get (step s a), y ∈ get s ∨ P y) :
    x ∈ get s0 ∨ P x := by
  have h := @foldlInvMem α σ (fun s => Q s ∧ ∀ y ∈ get s, y ∈ get s0 ∨ P y) step l s0
    ⟨hQ0, fun y hy => Or.inl hy⟩
    (fun a ha t ht => ⟨hQstep t a ha ht.1,
      fun y hy => (hstep t a ha ht.1 y hy).elim (fun h2 => ht.2 y h2) Or.inr⟩)
  exact h.2 x hx

theorem dfP5_fields_empty (doc : Doc) (c : Nat)
    (h1 : ∀ e ∈ doc.elems, e.id ≠ "")
    (h3 : ∀ e ∈ doc.elems, dropdownLikeElem e = false) :
    (dfP5 doc c).fields = [] := by
  unfold dfP5
  rw [dfP4_doc doc c h1]
  exact detectCustomDropdowns_empty doc _ h3

theorem df_groups_isGroup (doc : Doc) (c : Nat) :
    ∀ a ∈ (dfRg doc c).1 ++ (dfCg doc c).1, a.isGroup = true := by
  intro a ha
  unfold dfCg at ha
  unfold dfRg at ha
  rcases List.mem_append.mp ha with h | h
  · exact ((groupRadioButtons_spec doc c).2 a h).1
  · exact ((groupCheckboxes_spec doc (groupRadioButtons doc c).2).2 a h).1

theorem detect_groups_standalone0 (doc : Doc) (c : Nat)
    (h1 : ∀ e ∈ doc.elems, e.id ≠ "")
    (h2 : ∀ i, i < doc.elems.length → ∀ j, j < doc.elems.length → i ≠ j →
      (doc.elemAt i).id ≠ (doc.elemAt j).id)
    (h3 : ∀ e ∈ doc.elems, dropdownLikeElem e = false) :
    ∀ f ∈ (detectFormFields doc c false).fields, f.isGroup = false →
      (dfRadioIds doc c).contains f.id = false ∧ (dfCbIds doc c).contains f.id = false := by
  intro f hf hg
  have hspecR := fun s hs => ((radioMemberIds_spec doc c s hs).2)
  have hspecC := fun s hs => ((cbMemberIds_spec doc c s hs).2)
  have hre := dfRadioIds_no_empty doc c
  have hce := dfCbIds_no_empty doc c
  have hf0 : f ∈ (dfL6c doc c).merge.allFields := hf
  unfold dfL6c at hf0
  rcases foldl_mem_chainInv (fun s : LegacySt => s.merge.allFields) (fun s => s.doc = doc)
      legacySelectStep
      (fun y => y.isGroup = true ∨
        ((dfRadioIds doc c).contains y.id = false ∧ (dfCbIds doc c).contains y.id = false))
      _ _ f hf0 (dfL6b_doc doc c h1)
      (fun s i hil hQ => (legacySelectStep_doc s i
        (by rw [hQ]; exact h1 _ (elemAt_mem (dfSelIdxs_spec doc c h1 i hil).1))).trans hQ)
      (fun s i hil hQ y hy => (legacySelectStep_guard (dfRadioIds doc c) (dfCbIds doc c) doc
        hspecR hspecC h2 s i hQ (dfSelIdxs_spec doc c h1 i hil).1
        (dfSelIdxs_spec doc c h1 i hil).2
        (by rw [hQ]; exact h1 _ (elemAt_mem (dfSelIdxs_spec doc c h1 i hil).1)) y hy).imp
        id Or.inr) with hf1 | hP
  · unfold dfL6b at hf1
    rcases foldl_mem_chainInv (fun s : LegacySt => s.merge.allFields) (fun s => s.doc = doc)
        legacyTextareaStep
        (fun y => y.isGroup = true ∨
          ((dfRadioIds doc c).contains y.id = false ∧ (dfCbIds doc c).contains y.id = false))
        _ _ f hf1 (dfL6a_doc doc c h1)
        (fun s i hil hQ => (legacyTextareaStep_doc s i
          (by rw [hQ]; exact h1 _ (elemAt_mem (dfTaIdxs_spec doc c h1 i hil).1))).trans hQ)
        (fun s i hil hQ y hy => (legacyTextareaStep_guard (dfRadioIds doc c) (dfCbIds doc c) doc
          hspecR hspecC h2 s i hQ (dfTaIdxs_spec doc c h1 i hil).1
          (dfTaIdxs_spec doc c h1 i hil).2
          (by rw [hQ]; exact h1 _ (elemAt_mem (dfTaIdxs_spec doc c h1 i hil).1)) y hy).imp
          id Or.inr) with hf2 | hP
    · unfold dfL6a at hf2
      rcases foldl_mem_chainInv (fun s : LegacySt => s.merge.allFields) (fun s => s.doc = doc)
          (legacyInputStep (dfRadioIds doc c) (dfCbIds doc c))
          (fun y => y.isGroup = true ∨
            ((dfRadioIds doc c).contains y.id = false ∧ (dfCbIds doc c).contains y.id = false))
          _ _ f hf2 (dfP5_doc doc c h1)
          (fun s i hil hQ => (legacyInputStep_doc _ _ s i
            (by rw [hQ]; exact h1 _ (elemAt_mem (dfInputIdxs_lt doc c h1 i hil)))).trans hQ)
          (fun s i hil hQ y hy => (legacyInputStep_guard (dfRadioIds doc c) (dfCbIds doc c) doc
            hspecR hspecC h2 s i hQ (dfInputIdxs_lt doc c h1 i hil)
            (by rw [hQ]; exact h1 _ (elemAt_mem (dfInputIdxs_lt doc c h1 i hil))) y hy).imp
            id Or.inr) with hf3 | hP
      · have hf3' : f ∈ (dfSt5 doc c).allFields := hf3
        unfold dfSt5 at hf3'
        rw [dfP5_fields_empty doc c h1 h3, List.foldl_nil] at hf3'
        unfold dfSt4 at hf3'
        rcases foldl_mem_chain (fun s : MergeSt => s.allFields) (mergeAria _ _)
            (fun y => y.isGroup = true ∨
              ((dfRadioIds doc c).contains y.id = false ∧
               (dfCbIds doc c).contains y.id = false))
            _ _ f hf3'
            (fun s a ha y hy =>
              (mergeAria_guard _ _ hre hce s a y hy).imp id Or.inr) with hf4 | hP
        · unfold dfSt3 at hf4
          rcases foldl_mem_chain (fun s : MergeSt => s.allFields) (mergeTabOrder _ _)
              (fun y => y.isGroup = true ∨
                ((dfRadioIds doc c).contains y.id = false ∧
                 (dfCbIds doc c).contains y.id = false))
              _ _ f hf4
              (fun s a ha y hy =>
                (mergeTabOrder_guard _ _ hre hce s a y hy).imp id Or.inr) with hf5 | hP
          · unfold dfSt2 at hf5
            rcases foldl_mem_chain (fun s : MergeSt => s.allFields) (mergeFocusable _ _)
                (fun y => y.isGroup = true ∨
                  ((dfRadioIds doc c).contains y.id = false ∧
                   (dfCbIds doc c).contains y.id = false))
                _ _ f hf5
                (fun s a ha y hy =>
                  (mergeFocusable_guard _ _ hre hce s a y hy).imp id Or.inr) with hf6 | hP
            · unfold dfSt0 at hf6
              rcases foldl_mem_chain (fun s : MergeSt => s.allFields) MergeSt.push
                  (fun y => y.isGroup = true ∨
                    ((dfRadioIds doc c).contains y.id = false ∧
                     (dfCbIds doc c).contains y.id = false))
                  _ _ f hf6
                  (fun s a ha y hy => (MergeSt.push_mem s a y hy).imp id
                    (fun hq => Or.inl (by rw [hq]; exact df_groups_isGroup doc c a ha)))
                  with hf7 | hP
              · exact absurd hf7 (List.not_mem_nil f)
              · rcases hP with hP | hP
                · rw [hg] at hP
                  exact Bool.noConfusion hP
                · exact hP
            · rcases hP with hP | hP
              · rw [hg] at hP
                exact Bool.noConfusion hP
              · exact hP
          · rcases hP with hP | hP
            · rw [hg] at hP
              exact Bool.noConfusion hP
            · exact hP
        · rcases hP with hP | hP
          · rw [hg] at hP
            exact Bool.noConfusion hP
          · exact hP
      · rcases hP with hP | hP
        · rw [hg] at hP
          exact Bool.noConfusion hP
        · exact hP
    · rcases hP with hP | hP
      · rw [hg] at hP
        exact Bool.noConfusion hP
      · exact hP
  · rcases hP with hP | hP
    · rw [hg] at hP
      exact Bool.noConfusion hP
    · exact hP

set_option allowUnsafeReducibility true in
attribute [semireducible] dfRg dfCg dfRadioIds dfCbIds dfSt0 dfP2 dfSt2 dfP3 dfSt3 dfP4 dfSt4 dfP5 dfSt5 dfInputIdxs dfL6a dfTaIdxs dfL6b dfSelIdxs dfL6c

/-! ### Claim C2 -/

set_option maxRecDepth 4000 in
/-- Counterexample to C2: on a document of two enabled same-name radios
carrying no ids, group synthesis consumes both controls (elements 0 and 1)
as members of the synthesized radio-group, yet the same invocation also
emits a standalone radio descriptor for each of the two controls: the
member exclusion lists only record non-empty member ids, and the passes
write freshly generated ids onto the elements afterwards. -/
theorem groupMember_standalone_counterexample :
    (((detectFormFields docUnnamedRadios 0 false).fields.headD default).options.getD []).map
        (fun o => o.elemRef) = [some 0, some 1] ∧
    ((detectFormFields docUnnamedRadios 0 false).fields.map (fun f => (f.id, f.type, f.isGroup)))
      = [("ai-applier-field-1", "radio-group", true),
         ("ai-applier-field-2", "radio", false),
         ("ai-applier-field-3", "radio", false)] ∧
    ((detectFormFields docUnnamedRadios 0 false).doc.elems.map (fun e => e.id))
      = ["ai-applier-field-2", "ai-applier-field-3"] := by
  decide

/-- C2: a control consumed as a group member CAN be re-emitted as a
standalone descriptor when it carries no document id (the member exclusion
lists only hold non-empty ids, and the discovery passes write freshly
generated ids onto the very member elements - see the counterexample).
The claim is corrected: whenever every element of the document carries a
non-empty id, element ids are pairwise distinct, and no element matches
the custom-dropdown pass, every standalone (non-group) descriptor of the
same invocation has an identifier distinct from every group-member id, so
no grouped control is also emitted standalone. -/
theorem groupMember_never_standalone (doc : Doc) (c : Nat) (fe : Bool)
    (h1 : ∀ e ∈ doc.elems, e.id ≠ "")
    (h2 : ∀ i, i < doc.elems.length → ∀ j, j < doc.elems.length → i ≠ j →
      (doc.elemAt i).id ≠ (doc.elemAt j).id)
    (h3 : ∀ e ∈ doc.elems, dropdownLikeElem e = false) :
    ∀ f ∈ (detectFormFields doc c fe).fields, f.isGroup = false →
      f.id ∉ groupMemberIds doc c := by
  intro f hf hg hmem
  have hf0 : f ∈ (detectFormFields doc c false).fields := by
    cases fe
    · exact hf
    · exact detect_fields_sub_filter doc c f hf
  rcases detect_groups_standalone0 doc c h1 h2 h3 f hf0 hg with ⟨hr, hc⟩
  unfold groupMemberIds at hmem
  rcases List.mem_append.mp hmem with hm | hm
  · have hh := contains_true_of_mem _ _ hm
    rw [hr] at hh
    exact Bool.noConfusion hh
  · have hh := contains_true_of_mem _ _ hm
    rw [hc] at hh
    exact Bool.noConfusion hh

set_option maxRecDepth 4000 in
/-- Witness for C2: on a fully id-labelled document holding a radio group
and a text input, the standalone text descriptor's id avoids the group's
member ids. -/
theorem groupMember_never_standalone_witness :
    ((detectFormFields docC2 0 false).fields.getD 1 default).id ∉ groupMemberIds docC2 0 :=
  groupMember_never_standalone docC2 0 false (by decide) (by decide) (by decide)
    ((detectFormFields docC2 0 false).fields.getD 1 default)
    (List.Mem.tail _ (List.Mem.head _)) (by decide)

end FieldDetect